import Mathlib

/-!
Verification of the projectlib run/terminal orchestration core.

This file gives a shallow embedding, in Lean 4, of the process-lifecycle
orchestrator of the repository: the `RunService` state machine
(`apps/desktop/src/lib/run/service.ts`), the `ShellAdapter` subprocess
bridge (same file), the `TerminalService` session registry
(`lib/terminal/service.ts`), and the run-configuration persistence layer
(`packages/db/src/index.ts`), including its JSON serialization of argument
lists and environment maps.  Asynchronous TypeScript methods become pure
Lean functions over an explicit orchestrator state; exceptions become
`Except`; the JavaScript `Map` becomes an association list; `Date.now()`
values and spawn outcomes are passed in explicitly.  Theorems at the end
settle the specification claims against these definitions.
-/

namespace Projectlib

/-- The run lifecycle status enum (`RunStatus["status"]` in `@projectlib/db`):
`idle | starting | running | succeeded | failed | stopped`. -/
inductive LifecycleStatus where
  | idle
  | starting
  | running
  | succeeded
  | failed
  | stopped
  deriving DecidableEq, Repr

/-- A project row (`Project` in `@projectlib/db`).  Read-only to the run core. -/
structure Project where
  id : String
  name : String
  path : String
  detectedLang : Option String
  createdAt : Nat
  updatedAt : Nat
  deriving DecidableEq, Repr

/-- The persisted run-status shape (`RunStatus` in `@projectlib/db`): what
`saveRunStatus` writes and `listRunStatuses` reads.  The JavaScript
`Record<string,string>` environment is modelled as an association list in
insertion order. -/
structure RunStatusRecord where
  projectId : String
  status : LifecycleStatus
  lastRunId : Option String
  lastCommand : Option String
  lastArgs : List String
  lastEnv : List (String × String)
  lastCwd : Option String
  lastExitCode : Option Int
  startedAt : Option Nat
  finishedAt : Option Nat
  updatedAt : Nat
  deriving DecidableEq, Repr

/-- The in-memory per-project run state (`RunState` in `lib/run/types.ts`):
the persisted shape plus the bound terminal tab id. -/
structure RunState extends RunStatusRecord where
  tabId : Option String
  deriving DecidableEq, Repr

/-- `createIdleState` from `lib/run/service.ts` (`now` stands for `Date.now()`). -/
def createIdleState (projectId : String) (now : Nat) : RunState :=
  { projectId := projectId
    status := .idle
    lastRunId := none
    lastCommand := none
    lastArgs := []
    lastEnv := []
    lastCwd := none
    lastExitCode := none
    startedAt := none
    finishedAt := none
    updatedAt := now
    tabId := none }

/-- A saved run configuration (`RunConfig` in `@projectlib/db`). -/
structure RunConfig where
  id : String
  projectId : String
  command : String
  args : List String
  env : List (String × String)
  cwd : Option String
  lastExitCode : Option Int
  updatedAt : Nat
  deriving DecidableEq, Repr

/-- The resolved command (`RunCommand` in `lib/run/types.ts`). -/
structure RunCommand where
  command : String
  args : List String
  env : List (String × String)
  cwd : String
  runId : Option String
  deriving DecidableEq, Repr

/-- Caller-supplied overrides (`RunOverrides` in `lib/run/types.ts`).  Absent
and explicitly-`null`/`undefined` fields are conflated into `none`, which is
faithful to how every use site reads them (`??` and truthiness tests). -/
structure RunOverrides where
  command : Option String
  args : Option (List String)
  env : Option (List (String × String))
  cwd : Option String
  remember : Option Bool
  runId : Option String
  deriving DecidableEq, Repr

/-- The empty override object `{}`. -/
def RunOverrides.empty : RunOverrides :=
  { command := none, args := none, env := none, cwd := none
    remember := none, runId := none }

/-- JavaScript truthiness of a `string | null | undefined` value: `null`,
`undefined` and the empty string are falsy.  Used by the `if (overrides.command)`
and `if (current.lastCommand)` tests in `resolveCommand`. -/
def strTruthy : Option String → Bool
  | none => false
  | some s => s ≠ ""

/-- Insert into a list sorted descending by `key` (stable: an existing element
with an equal or larger key stays in front). -/
def insertDescBy {α : Type} (key : α → Nat) (r : α) : List α → List α
  | [] => [r]
  | x :: xs =>
    if key r ≤ key x then x :: insertDescBy key r xs
    else r :: x :: xs

/-- Sort descending by `key`, modelling the SQL `ORDER BY updated_at DESC`
of `listRuns` in `packages/db/src/index.ts`. -/
def sortDescBy {α : Type} (key : α → Nat) (rs : List α) : List α :=
  rs.foldr (insertDescBy key) []

/-- The `listRuns(projectId)` query of `packages/db/src/index.ts`, over an
abstract table of already-decoded rows: the project's rows, most recently
updated first. -/
def listRunsSorted (table : List RunConfig) (projectId : String) : List RunConfig :=
  sortDescBy RunConfig.updatedAt (table.filter (fun r => r.projectId = projectId))

/-- `RunService.resolveCommand` from `lib/run/service.ts` lines 417-452.
`runs` is the decoded result of `listRuns(project.id)` (already sorted by
`updatedAt` descending). -/
def resolveCommand (project : Project) (overrides : RunOverrides)
    (current : RunState) (runs : List RunConfig) : Option RunCommand :=
  if strTruthy overrides.command then
    some { command := overrides.command.getD ""
           args := overrides.args.getD []
           env := overrides.env.getD []
           cwd := overrides.cwd.getD project.path
           runId := overrides.runId }
  else if strTruthy current.lastCommand then
    some { command := current.lastCommand.getD ""
           args := overrides.args.getD current.lastArgs
           env := overrides.env.getD current.lastEnv
           cwd := overrides.cwd.getD (current.lastCwd.getD project.path)
           runId := overrides.runId <|> current.lastRunId }
  else
    match runs with
    | [] => none
    | selected :: _ =>
      some { command := selected.command
             args := overrides.args.getD selected.args
             env := overrides.env.getD selected.env
             cwd := overrides.cwd.getD (selected.cwd.getD project.path)
             runId := overrides.runId <|> some selected.id }

/-- `Map.set` semantics of a JavaScript `Map` over an association list:
replace the value in place if the key is present, else append. -/
def setEntry {α : Type} (m : List (String × α)) (k : String) (v : α) :
    List (String × α) :=
  match m with
  | [] => [(k, v)]
  | (k', v') :: rest => if k' = k then (k, v) :: rest else (k', v') :: setEntry rest k v

/-- `Map.delete` semantics: remove the entry with the given key. -/
def removeEntry {α : Type} (m : List (String × α)) (k : String) :
    List (String × α) :=
  match m with
  | [] => []
  | (k', v') :: rest => if k' = k then rest else (k', v') :: removeEntry rest k

/-- Which backend a run process uses (`RunProcess.type` in `lib/run/types.ts`). -/
inductive ProcType where
  | pty
  | shell
  deriving DecidableEq, Repr

/-- The orchestrator-internal process record (`RunProcess` in `lib/run/types.ts`).
The `kill()` capability is modelled by the `Event.processKill` log entry that
`stop` emits when invoking it. -/
structure RunProcess where
  tabId : String
  stopRequested : Bool
  ptype : ProcType
  deriving DecidableEq, Repr

/-- A failure toast (`RunToastMessage` in `lib/run/types.ts`). -/
structure ToastMessage where
  projectId : String
  message : String
  actionLabel : Option String
  tabId : Option String
  deriving DecidableEq, Repr

/-- Observable effects of the orchestrator, in chronological order:
status-row persistence (`saveRunStatus`), reactive state publication
(`updateState`), spawn attempts (PTY path and ShellAdapter fallback),
terminal-tab registration/disposal in the registry, `kill()` invocations,
and `updateRunOutcome` writes. -/
inductive Event where
  | persistStatus (rec : RunStatusRecord)
  | stateSet (s : RunState)
  | spawnPtyAttempt (projectId : String)
  | spawnShellAttempt (projectId : String)
  | tabCreated (id : String)
  | tabDisposed (id : String)
  | processKill (tabId : String)
  | runOutcome (runId : String) (code : Option Int) (finishedAt : Nat)
  deriving DecidableEq, Repr

/-- The whole orchestrator state: the reactive `RunState` map, the registered
`RunProcess` map, the terminal registry's live session ids, the pending
failure toast, and the chronological effect log. -/
structure Orch where
  states : List (String × RunState)
  processes : List (String × RunProcess)
  tabs : List String
  toast : Option ToastMessage
  log : List Event
  deriving DecidableEq, Repr

/-- A freshly constructed `RunService`: everything empty. -/
def Orch.init : Orch :=
  { states := [], processes := [], tabs := [], toast := none, log := [] }

/-- `RunService.getState`: return the project's state, inserting a fresh idle
state into the map when absent (`now` stands for the `Date.now()` inside
`createIdleState`). -/
def Orch.getStateInsert (o : Orch) (projectId : String) (now : Nat) :
    RunState × Orch :=
  match o.states.lookup projectId with
  | some s => (s, o)
  | none =>
    let s := createIdleState projectId now
    (s, { o with states := setEntry o.states projectId s })

/-- `RunService.toPersist`: drop the `tabId` field for storage. -/
def RunState.toPersist (s : RunState) : RunStatusRecord := s.toRunStatusRecord

/-- A `saveRunStatus` call, recorded in the effect log. -/
def Orch.persist (o : Orch) (rec : RunStatusRecord) : Orch :=
  { o with log := o.log ++ [.persistStatus rec] }

/-- `RunService.updateState`: publish a (cloned) state into the reactive map. -/
def Orch.updateState (o : Orch) (s : RunState) : Orch :=
  { o with states := setEntry o.states s.projectId s
           log := o.log ++ [.stateSet s] }

/-- The typed failures of `RunService.start` (`lib/run/errors.ts`), plus the
propagated spawn failure when the ShellAdapter fallback also throws. -/
inductive StartError where
  | runAlreadyInProgress (projectId : String)
  | missingRunConfiguration (projectId : String)
  | spawnFailed
  deriving DecidableEq, Repr

/-- Host-supplied inputs of one `start` call: the two `Date.now()` readings,
whether each spawn path throws, and the created tab's id. -/
structure StartEnv where
  now : Nat
  nowRunning : Nat
  ptyFails : Bool
  shellFails : Bool
  tabId : String
  deriving DecidableEq, Repr

/-- The `starting` snapshot built by `start` (`lib/run/service.ts` lines
216-230): the resolved command stamped into the last-used fields, timestamps
reset, no bound tab. -/
def startingSnapshot (state0 : RunState) (cmd : RunCommand) (now : Nat) : RunState :=
  { state0 with
    status := .starting
    lastRunId := cmd.runId <|> state0.lastRunId
    lastCommand := some cmd.command
    lastArgs := cmd.args
    lastEnv := cmd.env
    lastCwd := some cmd.cwd
    lastExitCode := none
    startedAt := some now
    finishedAt := none
    updatedAt := now
    tabId := none }

/-- The `running` snapshot (`lib/run/service.ts` lines 289-294): the
`starting` snapshot with the created tab bound. -/
def runningSnapshot (next : RunState) (tabId : String) (now : Nat) : RunState :=
  { next with status := .running, tabId := some tabId, updatedAt := now }

/-- The tail of `start` after the guard passed and the command resolved
(`lib/run/service.ts` lines 216-362): persist and publish `starting`, spawn
(PTY path, ShellAdapter fallback on failure, a second failure propagating),
register the tab, persist and publish `running`, register the `RunProcess`. -/
def startResolved (o : Orch) (project : Project) (state0 : RunState)
    (cmd : RunCommand) (env : StartEnv) : Except StartError String × Orch :=
  let next := startingSnapshot state0 cmd env.now
  let o := (o.persist next.toPersist).updateState next
  let o := { o with log := o.log ++ [.spawnPtyAttempt project.id] }
  let o :=
    if env.ptyFails then { o with log := o.log ++ [.spawnShellAttempt project.id] }
    else o
  if env.ptyFails && env.shellFails then
    (.error .spawnFailed, o)
  else
    let fallback := env.ptyFails
    let o := { o with tabs := o.tabs ++ [env.tabId],
                      log := o.log ++ [Event.tabCreated env.tabId] }
    let runningState := runningSnapshot next env.tabId env.nowRunning
    let o := (o.persist runningState.toPersist).updateState runningState
    let o := { o with processes := setEntry o.processes project.id
                        { tabId := env.tabId, stopRequested := false
                          ptype := if fallback then .shell else .pty } }
    (.ok env.tabId, o)

/-- `RunService.start` from `lib/run/service.ts` lines 205-363, up to and
including registering the `RunProcess` and returning the tab id.  `runs` is
the decoded `listRuns(project.id)` result used by `resolveCommand`.  The
installed `onExit` closure is modelled separately by `onExit` below. -/
def start (o : Orch) (project : Project) (overrides : RunOverrides)
    (runs : List RunConfig) (env : StartEnv) : Except StartError String × Orch :=
  let s0 := o.getStateInsert project.id env.now
  let state0 := s0.1
  let o := s0.2
  if state0.status = .starting ∨ state0.status = .running then
    (.error (.runAlreadyInProgress project.id), o)
  else
    match resolveCommand project overrides state0 runs with
    | none => (.error (.missingRunConfiguration project.id), o)
    | some cmd => startResolved o project state0 cmd env

/-- The `stopRequested` read of the exit handler:
`this.processes.get(project.id)?.stopRequested ?? false`. -/
def stopRequestedOf (o : Orch) (projectId : String) : Bool :=
  (((o.processes.lookup projectId).map RunProcess.stopRequested)).getD false

/-- The outcome classification of the exit handler (`lib/run/service.ts`
lines 327-333): `stopped` when a stop was requested, else `failed` when the
exit code is `null` or non-zero, else `succeeded`. -/
def classifyExit (stopRequested : Bool) (code : Option Int) : LifecycleStatus :=
  if stopRequested then .stopped
  else
    match code with
    | none => .failed
    | some n => if n ≠ 0 then .failed else .succeeded

/-- The final state written by the exit handler (`lib/run/service.ts` lines
335-342): the current state with the classified status, the exit code, and
the finish timestamp stamped in, the tab still referenced. -/
def exitFinalState (cur : RunState) (status : LifecycleStatus) (code : Option Int)
    (finished : Nat) (tabId : String) : RunState :=
  { cur with status := status, lastExitCode := code
             finishedAt := some finished, updatedAt := finished
             tabId := some tabId }

/-- The `tab.pty.onExit` handler installed by `start` (`lib/run/service.ts`
lines 323-360): classify the outcome from `stopRequested` and the exit code,
persist and publish the final state, drop the `RunProcess`, record the run
outcome, and raise a failure toast when classified `failed`. -/
def onExit (o : Orch) (project : Project) (tabId : String) (runId : Option String)
    (exitCode : Option Int) (finished : Nat) : Orch :=
  let stopRequested := stopRequestedOf o project.id
  let code := exitCode
  let status := classifyExit stopRequested code
  let c0 := o.getStateInsert project.id finished
  let o := c0.2
  let finalState := exitFinalState c0.1 status code finished tabId
  let o := (o.persist finalState.toPersist).updateState finalState
  let o := { o with processes := removeEntry o.processes project.id }
  let o :=
    match runId with
    | some rid => { o with log := o.log ++ [.runOutcome rid code finished] }
    | none => o
  if status = .failed then
    let msg : ToastMessage :=
      { projectId := project.id
        message := project.name ++ " run exited with code " ++
          (match code with | some n => toString n | none => "?") ++ "."
        actionLabel := some "View logs"
        tabId := some tabId }
    { o with toast := some msg }
  else o

/-- `RunService.stop` from `lib/run/service.ts` lines 365-373: no-op when no
process is registered; otherwise set `stopRequested` and invoke `kill()`. -/
def stop (o : Orch) (projectId : String) : Orch :=
  match o.processes.lookup projectId with
  | none => o
  | some p =>
    { o with processes := setEntry o.processes projectId { p with stopRequested := true }
             log := o.log ++ [.processKill p.tabId] }

/-- `RunService.loadPersistedStates` from `lib/run/service.ts` lines 152-171:
rebuild the state map from the persisted rows (restricted to known projects,
with `tabId` reset to `null`), synthesizing idle states for the rest.
`rows` is the `listRunStatuses()` result; `now` the `Date.now()` used by
`createIdleState`.  The first loop is `restoreRow`, the second `ensureIdle`. -/
def restoreRow (pids : List String) (m : List (String × RunState))
    (row : RunStatusRecord) : List (String × RunState) :=
  if row.projectId ∈ pids then
    setEntry m row.projectId { toRunStatusRecord := row, tabId := none }
  else m

/-- The second loop of `loadPersistedStates`: synthesize an idle state for
every known project that has no restored row. -/
def ensureIdle (now : Nat) (m : List (String × RunState))
    (project : Project) : List (String × RunState) :=
  match m.lookup project.id with
  | some _ => m
  | none => setEntry m project.id (createIdleState project.id now)

def loadPersistedStates (o : Orch) (projects : List Project)
    (rows : List RunStatusRecord) (now : Nat) : Orch :=
  let projectIds := projects.map Project.id
  let step1 := rows.foldl (restoreRow projectIds) ([] : List (String × RunState))
  let step2 := projects.foldl (ensureIdle now) step1
  { o with states := step2 }

/-! ### JSON serialization of argument lists and environment maps

`saveRunConfig` stores `args` and `env` through `JSON.stringify`, and
`fromRunRow` reads them back through `JSON.parse` plus a `zod` schema check
(`z.array(z.string())` / `z.record(z.string(), z.string())`).  The encoder
below mirrors the output format of the host's `JSON.stringify` (the five
short escapes, `\u00XX` for the remaining control characters); the parser
mirrors `JSON.parse` restricted to the two shapes the schemas accept,
rejecting anything else just as the schema check would. -/

/-- The double-quote character. -/
def quoteChar : Char := Char.ofNat 34

/-- The backslash character. -/
def backslashChar : Char := Char.ofNat 92

/-- The opening-brace character. -/
def lbraceChar : Char := Char.ofNat 123

/-- The closing-brace character. -/
def rbraceChar : Char := Char.ofNat 125

/-- Lower-case hex digit of a value below 16. -/
def hexDigitChar (n : Nat) : Char :=
  if n < 10 then Char.ofNat (48 + n) else Char.ofNat (97 + n - 10)

/-- Value of a hex digit character, accepting both cases. -/
def hexVal (c : Char) : Option Nat :=
  if 48 ≤ c.toNat ∧ c.toNat ≤ 57 then some (c.toNat - 48)
  else if 97 ≤ c.toNat ∧ c.toNat ≤ 102 then some (c.toNat - 97 + 10)
  else if 65 ≤ c.toNat ∧ c.toNat ≤ 70 then some (c.toNat - 65 + 10)
  else none

/-- `JSON.stringify` escaping of one character inside a string literal. -/
def escChar (c : Char) : List Char :=
  if c = quoteChar then [backslashChar, quoteChar]
  else if c = backslashChar then [backslashChar, backslashChar]
  else if c = Char.ofNat 8 then [backslashChar, 'b']
  else if c = Char.ofNat 9 then [backslashChar, 't']
  else if c = Char.ofNat 10 then [backslashChar, 'n']
  else if c = Char.ofNat 12 then [backslashChar, 'f']
  else if c = Char.ofNat 13 then [backslashChar, 'r']
  else if c.toNat < 32 then
    [backslashChar, 'u', '0', '0', hexDigitChar (c.toNat / 16), hexDigitChar (c.toNat % 16)]
  else [c]

/-- A JSON string literal: quote, escaped body, quote. -/
def encStringChars (s : List Char) : List Char :=
  quoteChar :: s.flatMap escChar ++ [quoteChar]

/-- The inside of a JSON array of strings (comma-separated items, no brackets). -/
def encStringItems : List (List Char) → List Char
  | [] => []
  | [s] => encStringChars s
  | s :: ss => encStringChars s ++ ',' :: encStringItems ss

/-- `JSON.stringify` of an array of strings. -/
def encArrayChars (xs : List (List Char)) : List Char :=
  '[' :: encStringItems xs ++ [']']

/-- One `"key":"value"` member of a JSON object. -/
def encPairChars (kv : List Char × List Char) : List Char :=
  encStringChars kv.1 ++ ':' :: encStringChars kv.2

/-- The inside of a JSON object with string values (comma-separated members). -/
def encRecordItems : List (List Char × List Char) → List Char
  | [] => []
  | [kv] => encPairChars kv
  | kv :: rest => encPairChars kv ++ ',' :: encRecordItems rest

/-- `JSON.stringify` of a record of strings (keys in insertion order). -/
def encRecordChars (kvs : List (List Char × List Char)) : List Char :=
  lbraceChar :: encRecordItems kvs ++ [rbraceChar]

/-- Inverse of an escape character following a backslash. -/
def unescChar (c : Char) : Option Char :=
  if c = quoteChar then some quoteChar
  else if c = backslashChar then some backslashChar
  else if c = '/' then some '/'
  else if c = 'b' then some (Char.ofNat 8)
  else if c = 'f' then some (Char.ofNat 12)
  else if c = 'n' then some (Char.ofNat 10)
  else if c = 'r' then some (Char.ofNat 13)
  else if c = 't' then some (Char.ofNat 9)
  else none

/-- Parse the body of a JSON string literal (after the opening quote), up to
and including the closing quote; returns the decoded characters and the rest
of the input. -/
def parseStringBody : List Char → Option (List Char × List Char)
  | [] => none
  | c :: rest =>
    if c = quoteChar then some ([], rest)
    else if c = backslashChar then
      match rest with
      | [] => none
      | e :: rest2 =>
        if e = 'u' then
          match rest2 with
          | h1 :: h2 :: h3 :: h4 :: rest3 =>
            match hexVal h1, hexVal h2, hexVal h3, hexVal h4, parseStringBody rest3 with
            | some n1, some n2, some n3, some n4, some (s, r) =>
              some (Char.ofNat (((n1 * 16 + n2) * 16 + n3) * 16 + n4) :: s, r)
            | _, _, _, _, _ => none
          | _ => none
        else
          match unescChar e, parseStringBody rest2 with
          | some d, some (s, r) => some (d :: s, r)
          | _, _ => none
    else
      match parseStringBody rest with
      | some (s, r) => some (c :: s, r)
      | none => none

/-- Parse one or more comma-separated JSON string items up to a closing `]`.
The fuel bounds the number of items (one is consumed per item). -/
def parseStringItems : Nat → List Char → Option (List (List Char) × List Char)
  | 0, _ => none
  | n + 1, l =>
    match l with
    | [] => none
    | c :: rest =>
      if c = quoteChar then
        match parseStringBody rest with
        | none => none
        | some (s, r) =>
          match r with
          | [] => none
          | d :: r2 =>
            if d = ',' then
              match parseStringItems n r2 with
              | some (ss, r3) => some (s :: ss, r3)
              | none => none
            else if d = ']' then some ([s], r2)
            else none
      else none

/-- `JSON.parse` of a complete input, restricted to arrays of strings (the
shape `z.array(z.string())` accepts); anything else yields `none`, as the
parse or the schema check would throw. -/
def parseStringArrayChars (l : List Char) : Option (List (List Char)) :=
  match l with
  | [] => none
  | c :: rest =>
    if c = '[' then
      match rest with
      | [] => none
      | d :: rest2 =>
        if d = ']' then (if rest2 = [] then some [] else none)
        else
          match parseStringItems rest.length rest with
          | some (xs, r) => if r = [] then some xs else none
          | none => none
    else none

/-- Parse one or more comma-separated `"key":"value"` members up to a
closing brace.  The fuel bounds the number of members. -/
def parseRecordItems : Nat → List Char → Option (List (List Char × List Char) × List Char)
  | 0, _ => none
  | n + 1, l =>
    match l with
    | [] => none
    | c :: rest =>
      if c = quoteChar then
        match parseStringBody rest with
        | none => none
        | some (k, r) =>
          match r with
          | [] => none
          | d :: r2 =>
            if d = ':' then
              match r2 with
              | [] => none
              | e :: r3 =>
                if e = quoteChar then
                  match parseStringBody r3 with
                  | none => none
                  | some (v, r4) =>
                    match r4 with
                    | [] => none
                    | f :: r5 =>
                      if f = ',' then
                        match parseRecordItems n r5 with
                        | some (kvs, r6) => some ((k, v) :: kvs, r6)
                        | none => none
                      else if f = rbraceChar then some ([(k, v)], r5)
                      else none
                else none
            else none
      else none

/-- `JSON.parse` of a complete input, restricted to records of strings (the
shape `z.record(z.string(), z.string())` accepts). -/
def parseStringRecordChars (l : List Char) :
    Option (List (List Char × List Char)) :=
  match l with
  | [] => none
  | c :: rest =>
    if c = lbraceChar then
      match rest with
      | [] => none
      | d :: rest2 =>
        if d = rbraceChar then (if rest2 = [] then some [] else none)
        else
          match parseRecordItems rest.length rest with
          | some (kvs, r) => if r = [] then some kvs else none
          | none => none
    else none

/-- `JSON.stringify` of a `string[]`, at `String` level. -/
def jsonStringifyStrings (xs : List String) : String :=
  String.mk (encArrayChars (xs.map String.data))

/-- `JSON.parse` + `z.array(z.string())` of a serialized `string[]`. -/
def jsonParseStrings (s : String) : Option (List String) :=
  (parseStringArrayChars s.data).map (List.map String.mk)

/-- `JSON.stringify` of a `Record<string, string>`, at `String` level.  The
record is an association list in insertion order; a JavaScript object has no
duplicate keys. -/
def jsonStringifyRecord (kvs : List (String × String)) : String :=
  String.mk (encRecordChars (kvs.map (fun kv => (kv.1.data, kv.2.data))))

/-- `JSON.parse` + `z.record(z.string(), z.string())` of a serialized record. -/
def jsonParseRecord (s : String) : Option (List (String × String)) :=
  (parseStringRecordChars s.data).map (List.map (fun kv => (String.mk kv.1, String.mk kv.2)))

/-! ### The `runs` table of `packages/db/src/index.ts` -/

/-- A raw `runs` row as stored (`RunRow` in `packages/db/src/index.ts`):
`args` and `env` hold nullable JSON text. -/
structure RunRow where
  id : String
  projectId : String
  command : String
  args : Option String
  env : Option String
  cwd : Option String
  lastExitCode : Option Int
  updatedAt : Nat
  deriving DecidableEq, Repr

/-- The row `saveRunConfig` writes for a configuration: `args` and `env` are
`JSON.stringify`ed, the rest is stored verbatim. -/
def runConfigToRow (r : RunConfig) : RunRow :=
  { id := r.id
    projectId := r.projectId
    command := r.command
    args := some (jsonStringifyStrings r.args)
    env := some (jsonStringifyRecord r.env)
    cwd := r.cwd
    lastExitCode := r.lastExitCode
    updatedAt := r.updatedAt }

/-- The SQL upsert of `saveRunConfig` (`INSERT ... ON CONFLICT(id) DO UPDATE`):
replace the row with the same `id`, else insert. -/
def upsertRow : List RunRow → RunRow → List RunRow
  | [], row => [row]
  | x :: xs, row => if x.id = row.id then row :: xs else x :: upsertRow xs row

/-- `saveRunConfig` from `packages/db/src/index.ts` lines 186-212, as a table
transformation. -/
def saveRunConfigTable (table : List RunRow) (r : RunConfig) : List RunRow :=
  upsertRow table (runConfigToRow r)

/-- `fromRunRow` from `packages/db/src/index.ts`: decode a stored row; a
falsy (`null` or empty) `args`/`env` column becomes `[]`/`{}`, otherwise the
JSON text is parsed and schema-checked (a failure throws, modelled as `none`). -/
def fromRunRow (row : RunRow) : Option RunConfig :=
  match (match row.args with
         | none => some []
         | some s => if s = "" then some [] else jsonParseStrings s) with
  | none => none
  | some args =>
    match (match row.env with
           | none => some []
           | some s => if s = "" then some [] else jsonParseRecord s) with
    | none => none
    | some env =>
      some { id := row.id
             projectId := row.projectId
             command := row.command
             args := args
             env := env
             cwd := row.cwd
             lastExitCode := row.lastExitCode
             updatedAt := row.updatedAt }

/-- `listRuns(projectId)` from `packages/db/src/index.ts` lines 214-225 at
row level: select the project's rows ordered by `updated_at` descending, and
decode each (a decode failure rejects the whole call). -/
def listRunsDb (table : List RunRow) (projectId : String) : Option (List RunConfig) :=
  (sortDescBy RunRow.updatedAt (table.filter (fun r => r.projectId = projectId))).mapM fromRunRow

/-- `RunService.rememberConfiguration` from `lib/run/service.ts` lines
375-389: persist the configuration into the `runs` table, then refresh the
in-memory state's last-used fields (leaving `status` alone) and persist that
snapshot. -/
def rememberConfiguration (table : List RunRow) (o : Orch) (project : Project)
    (config : RunConfig) (now : Nat) : List RunRow × Orch :=
  let table := saveRunConfigTable table config
  let g := o.getStateInsert project.id now
  let state := g.1
  let o := g.2
  let next : RunState :=
    { state with
      lastRunId := some config.id
      lastCommand := some config.command
      lastArgs := config.args
      lastEnv := config.env
      lastCwd := some (config.cwd.getD project.path)
      updatedAt := now }
  let o := (o.persist next.toPersist).updateState next
  (table, o)

/-! ### TerminalService (`lib/terminal/service.ts`, registry of live sessions)
and the ShellAdapter exit normalization -/

/-- The failure behaviour of a backing process handle (PTY or ShellAdapter):
whether its `write` and `kill` operations throw. -/
structure PtyBehavior where
  writeThrows : Bool
  killThrows : Bool
  deriving DecidableEq, Repr

/-- `pty.write(data)`: throws according to the handle's behaviour. -/
def PtyBehavior.writeOp (p : PtyBehavior) : Except String Unit :=
  if p.writeThrows then .error "write failed" else .ok ()

/-- `pty.kill()`: throws according to the handle's behaviour. -/
def PtyBehavior.killOp (p : PtyBehavior) : Except String Unit :=
  if p.killThrows then .error "kill failed" else .ok ()

/-- A live terminal tab as the registry sees it (id, owning project, backing
process handle). -/
structure TerminalTabModel where
  id : String
  projectId : String
  pty : PtyBehavior
  deriving DecidableEq, Repr

/-- The `TerminalService` registry state: the tab map and the console error
log (`console.error` calls). -/
structure TermSvc where
  tabMap : List (String × TerminalTabModel)
  errorLog : List String
  deriving DecidableEq, Repr

/-- `TerminalService.write(id, data)`: a no-op for an unknown id; otherwise
forwards to `tab.pty.write` with no try/catch, so a throwing write
propagates to the caller. -/
def TermSvc.write (svc : TermSvc) (id : String) : Except String TermSvc :=
  match svc.tabMap.lookup id with
  | none => .ok svc
  | some tab =>
    match tab.pty.writeOp with
    | .ok _ => .ok svc
    | .error e => .error e

/-- `TerminalService.dispose(id)`: a no-op for an unknown id; otherwise the
kill of the backing process is wrapped in try/catch (a failure is logged),
and the tab is removed. -/
def TermSvc.dispose (svc : TermSvc) (id : String) : Except String TermSvc :=
  match svc.tabMap.lookup id with
  | none => .ok svc
  | some tab =>
    let svc :=
      match tab.pty.killOp with
      | .error _ => { svc with errorLog := svc.errorLog ++ ["Failed to kill terminal"] }
      | .ok _ => svc
    .ok { svc with tabMap := removeEntry svc.tabMap id }

/-- The `terminal.onData` relay wired in `createTabWithProcess`
(`src/unnamed/part_003` lines 94-101): forwards terminal input to the
process, catching and logging a throwing write. -/
def terminalDataRelay (pty : PtyBehavior) : List String :=
  match pty.writeOp with
  | .error _ => ["Failed to write to process"]
  | .ok _ => []

/-- The exit-code normalization of `ShellAdapter.closeHandler`
(`lib/run/service.ts` lines 59-64): `typeof payload.code === "number" ?
payload.code : 0`. -/
def shellAdapterCloseCode (code : Option Int) : Int :=
  match code with
  | some n => n
  | none => 0

/-- The full exit event a ShellAdapter exit listener receives:
`{ exitCode: <normalized code>, signal: payload.signal ?? undefined }`. -/
def shellAdapterCloseEvent (code signal : Option Int) : Int × Option Int :=
  (shellAdapterCloseCode code, signal)

/-! ### Helper lemmas -/

theorem lookup_setEntry_self {α : Type} (m : List (String × α)) (k : String) (v : α) :
    (setEntry m k v).lookup k = some v := by
  induction m with
  | nil => simp [setEntry]
  | cons x xs ih =>
    obtain ⟨k', v'⟩ := x
    by_cases h : k' = k
    · simp [setEntry, h]
    · simp [setEntry, h, List.lookup, beq_false_of_ne (Ne.symm h), ih]

theorem lookup_setEntry_ne {α : Type} (m : List (String × α)) (k k' : String) (v : α)
    (h : k' ≠ k) : (setEntry m k v).lookup k' = m.lookup k' := by
  induction m with
  | nil => simp [setEntry, List.lookup, beq_false_of_ne h]
  | cons x xs ih =>
    obtain ⟨k₀, v₀⟩ := x
    by_cases h0 : k₀ = k
    · subst h0
      simp [setEntry, List.lookup, beq_false_of_ne h, ih]
    · simp only [setEntry, if_neg h0, List.lookup]
      by_cases h1 : k' = k₀
      · simp [h1]
      · simp [beq_false_of_ne h1, ih]

/-- Guard of `start`: a `starting`/`running` state short-circuits the call
with `RunAlreadyInProgressError`, the orchestrator untouched. -/
theorem start_guard_aux (o : Orch) (project : Project) (ov : RunOverrides)
    (runs : List RunConfig) (env : StartEnv) (s : RunState)
    (hs : o.states.lookup project.id = some s)
    (h : s.status = .starting ∨ s.status = .running) :
    start o project ov runs env = (.error (.runAlreadyInProgress project.id), o) := by
  unfold start Orch.getStateInsert
  rw [hs]
  simp only [if_pos h]

/-- The `RunProcess` registered on a successful start. -/
def registeredProcess (env : StartEnv) : RunProcess :=
  { tabId := env.tabId, stopRequested := false
    ptype := if env.ptyFails then .shell else .pty }

/-- Characterization of `startResolved` when at least one backend spawns:
it returns the tab id, publishes the `running` snapshot, appends the effect
events in order, registers the tab, and registers a fresh `RunProcess`. -/
theorem startResolved_ok (o : Orch) (project : Project) (state0 : RunState)
    (cmd : RunCommand) (env : StartEnv)
    (hpid : state0.projectId = project.id)
    (hno : env.ptyFails = false ∨ env.shellFails = false) :
    (startResolved o project state0 cmd env).1 = .ok env.tabId ∧
    (startResolved o project state0 cmd env).2.states.lookup project.id =
      some (runningSnapshot (startingSnapshot state0 cmd env.now) env.tabId env.nowRunning) ∧
    (startResolved o project state0 cmd env).2.log =
      o.log ++ ([.persistStatus (startingSnapshot state0 cmd env.now).toPersist,
                 .stateSet (startingSnapshot state0 cmd env.now),
                 .spawnPtyAttempt project.id] ++
        (if env.ptyFails then [.spawnShellAttempt project.id] else []) ++
        [.tabCreated env.tabId,
         .persistStatus (runningSnapshot (startingSnapshot state0 cmd env.now)
           env.tabId env.nowRunning).toPersist,
         .stateSet (runningSnapshot (startingSnapshot state0 cmd env.now)
           env.tabId env.nowRunning)]) ∧
    (startResolved o project state0 cmd env).2.tabs = o.tabs ++ [env.tabId] ∧
    (startResolved o project state0 cmd env).2.processes.lookup project.id =
      some (registeredProcess env) := by
  have hpid2 : (runningSnapshot (startingSnapshot state0 cmd env.now)
      env.tabId env.nowRunning).projectId = project.id := hpid
  cases hp : env.ptyFails with
  | true =>
    cases hq : env.shellFails with
    | true => simp [hp, hq] at hno
    | false =>
      refine ⟨?_, ?_, ?_, ?_, ?_⟩ <;>
        simp [startResolved, Orch.persist, Orch.updateState, registeredProcess,
          hp, hq, hpid2, lookup_setEntry_self]
  | false =>
    refine ⟨?_, ?_, ?_, ?_, ?_⟩ <;>
      simp [startResolved, Orch.persist, Orch.updateState, registeredProcess,
        hp, hpid2, lookup_setEntry_self]

/-- Characterization of `startResolved` when both backends fail to spawn:
the call rejects with the propagated spawn failure, the published state is
the `starting` snapshot (no rollback), no tab exists, no process is
registered, and exactly one fallback attempt was made. -/
theorem startResolved_bothFail (o : Orch) (project : Project) (state0 : RunState)
    (cmd : RunCommand) (env : StartEnv)
    (hpid : state0.projectId = project.id)
    (hp : env.ptyFails = true) (hq : env.shellFails = true) :
    (startResolved o project state0 cmd env).1 = .error .spawnFailed ∧
    (startResolved o project state0 cmd env).2.states.lookup project.id =
      some (startingSnapshot state0 cmd env.now) ∧
    (startResolved o project state0 cmd env).2.log =
      o.log ++ [.persistStatus (startingSnapshot state0 cmd env.now).toPersist,
                .stateSet (startingSnapshot state0 cmd env.now),
                .spawnPtyAttempt project.id,
                .spawnShellAttempt project.id] ∧
    (startResolved o project state0 cmd env).2.tabs = o.tabs ∧
    (startResolved o project state0 cmd env).2.processes = o.processes := by
  have hpid2 : (startingSnapshot state0 cmd env.now).projectId = project.id := hpid
  refine ⟨?_, ?_, ?_, ?_, ?_⟩ <;>
    simp [startResolved, Orch.persist, Orch.updateState, hp, hq, hpid2,
      lookup_setEntry_self]

/-- Elimination principle for a successful `start`: it passed the guard,
resolved a command, reduced to `startResolved` on an intermediate
orchestrator differing from `o` at most in an inserted idle state, and at
least one backend spawned. -/
theorem start_ok_elim (o : Orch) (project : Project) (ov : RunOverrides)
    (runs : List RunConfig) (env : StartEnv) (tid : String)
    (hwf : ∀ s, o.states.lookup project.id = some s → s.projectId = project.id)
    (h : (start o project ov runs env).1 = .ok tid) :
    ∃ (state0 : RunState) (oMid : Orch) (cmd : RunCommand),
      state0.projectId = project.id ∧
      resolveCommand project ov state0 runs = some cmd ∧
      start o project ov runs env = startResolved oMid project state0 cmd env ∧
      (env.ptyFails = false ∨ env.shellFails = false) ∧
      oMid.log = o.log ∧ oMid.tabs = o.tabs ∧ oMid.processes = o.processes := by
  unfold start Orch.getStateInsert at h ⊢
  cases hl : o.states.lookup project.id with
  | some s =>
    simp only [hl] at h ⊢
    by_cases hg : s.status = .starting ∨ s.status = .running
    · rw [if_pos hg] at h
      simp at h
    · rw [if_neg hg] at h ⊢
      cases hres : resolveCommand project ov s runs with
      | none =>
        rw [hres] at h
        simp at h
      | some cmd =>
        rw [hres] at h
        refine ⟨s, o, cmd, hwf s hl, hres, rfl, ?_, rfl, rfl, rfl⟩
        cases hp : env.ptyFails with
        | false => exact Or.inl rfl
        | true =>
          cases hq : env.shellFails with
          | false => exact Or.inr rfl
          | true =>
            have h2 : (startResolved o project s cmd env).1 = Except.ok tid := h
            rw [(startResolved_bothFail o project s cmd env (hwf s hl) hp hq).1] at h2
            simp at h2
  | none =>
    simp only [hl] at h ⊢
    have hg : ¬((createIdleState project.id env.now).status = .starting ∨
        (createIdleState project.id env.now).status = .running) := by
      simp [createIdleState]
    rw [if_neg hg] at h ⊢
    cases hres : resolveCommand project ov (createIdleState project.id env.now) runs with
    | none =>
      rw [hres] at h
      simp at h
    | some cmd =>
      rw [hres] at h
      refine ⟨createIdleState project.id env.now,
        { o with states := setEntry o.states project.id (createIdleState project.id env.now) },
        cmd, rfl, hres, rfl, ?_, rfl, rfl, rfl⟩
      cases hp : env.ptyFails with
      | false => exact Or.inl rfl
      | true =>
        cases hq : env.shellFails with
        | false => exact Or.inr rfl
        | true =>
          have h2 : (startResolved
              { o with states := setEntry o.states project.id (createIdleState project.id env.now) }
              project (createIdleState project.id env.now) cmd env).1 = Except.ok tid := h
          rw [(startResolved_bothFail
            { o with states := setEntry o.states project.id (createIdleState project.id env.now) }
            project (createIdleState project.id env.now) cmd env rfl hp hq).1] at h2
          simp at h2

/-- Full characterization of a successful `start`: returned tab id, final
`running` state, effect log, registered tab and registered process. -/
theorem start_ok_full (o : Orch) (project : Project) (ov : RunOverrides)
    (runs : List RunConfig) (env : StartEnv) (tid : String)
    (hwf : ∀ s, o.states.lookup project.id = some s → s.projectId = project.id)
    (h : (start o project ov runs env).1 = .ok tid) :
    ∃ (state0 : RunState) (cmd : RunCommand),
      tid = env.tabId ∧
      (start o project ov runs env).2.states.lookup project.id =
        some (runningSnapshot (startingSnapshot state0 cmd env.now) env.tabId env.nowRunning) ∧
      (start o project ov runs env).2.log =
        o.log ++ ([.persistStatus (startingSnapshot state0 cmd env.now).toPersist,
                   .stateSet (startingSnapshot state0 cmd env.now),
                   .spawnPtyAttempt project.id] ++
          (if env.ptyFails then [.spawnShellAttempt project.id] else []) ++
          [.tabCreated env.tabId,
           .persistStatus (runningSnapshot (startingSnapshot state0 cmd env.now)
             env.tabId env.nowRunning).toPersist,
           .stateSet (runningSnapshot (startingSnapshot state0 cmd env.now)
             env.tabId env.nowRunning)]) ∧
      (start o project ov runs env).2.tabs = o.tabs ++ [env.tabId] ∧
      (start o project ov runs env).2.processes.lookup project.id =
        some (registeredProcess env) := by
  obtain ⟨state0, oMid, cmd, hpid, hres, heq, hno, hlog, htabs, hprocs⟩ :=
    start_ok_elim o project ov runs env tid hwf h
  obtain ⟨h1, h2, h3, h4, h5⟩ := startResolved_ok oMid project state0 cmd env hpid hno
  refine ⟨state0, cmd, ?_, ?_, ?_, ?_, ?_⟩
  · rw [heq, h1] at h
    exact (Except.ok.injEq _ _ ▸ h).symm
  · rw [heq, h2]
  · rw [heq, h3, hlog]
  · rw [heq, h4, htabs]
  · rw [heq, h5]

/-! ### C2 — the RunAlreadyInProgress guard -/

/-- C2: a `start` on a project whose current status is `starting` or
`running` fails with `RunAlreadyInProgressError` and returns the
orchestrator completely unchanged — no persistence, state-map, tab or
process mutation; consequently, once one `start` has succeeded (reaching
`running`), a second `start` on the same project must fail with
`RunAlreadyInProgressError`. -/
theorem start_guard_exclusive (o : Orch) (project : Project) (ov : RunOverrides)
    (runs : List RunConfig) (env : StartEnv) :
    (∀ s : RunState, o.states.lookup project.id = some s →
      (s.status = .starting ∨ s.status = .running) →
      start o project ov runs env = (.error (.runAlreadyInProgress project.id), o)) ∧
    (∀ tid : String,
      (∀ s, o.states.lookup project.id = some s → s.projectId = project.id) →
      (start o project ov runs env).1 = .ok tid →
      ∀ (ov' : RunOverrides) (runs' : List RunConfig) (env' : StartEnv),
        (start (start o project ov runs env).2 project ov' runs' env').1 =
          .error (.runAlreadyInProgress project.id)) := by
  constructor
  · intro s hs h
    exact start_guard_aux o project ov runs env s hs h
  · intro tid hwf h ov' runs' env'
    obtain ⟨state0, cmd, _, hlook, _, _, _⟩ :=
      start_ok_full o project ov runs env tid hwf h
    have := start_guard_aux (start o project ov runs env).2 project ov' runs' env'
      (runningSnapshot (startingSnapshot state0 cmd env.now) env.tabId env.nowRunning)
      hlook (Or.inr rfl)
    rw [this]

/-- Projection: the final state keeps the current state's project id. -/
@[simp] theorem exitFinalState_projectId (cur : RunState) (st : LifecycleStatus)
    (code : Option Int) (f : Nat) (t : String) :
    (exitFinalState cur st code f t).projectId = cur.projectId := rfl

/-- Projection: the final state carries the classified status. -/
@[simp] theorem exitFinalState_status (cur : RunState) (st : LifecycleStatus)
    (code : Option Int) (f : Nat) (t : String) :
    (exitFinalState cur st code f t).status = st := rfl

/-- Projection: the final state records the exit code. -/
@[simp] theorem exitFinalState_lastExitCode (cur : RunState) (st : LifecycleStatus)
    (code : Option Int) (f : Nat) (t : String) :
    (exitFinalState cur st code f t).lastExitCode = code := rfl

/-- Projection: the final state records the finish timestamp. -/
@[simp] theorem exitFinalState_finishedAt (cur : RunState) (st : LifecycleStatus)
    (code : Option Int) (f : Nat) (t : String) :
    (exitFinalState cur st code f t).finishedAt = some f := rfl

/-- Projection: the final state keeps the tab referenced. -/
@[simp] theorem exitFinalState_tabId (cur : RunState) (st : LifecycleStatus)
    (code : Option Int) (f : Nat) (t : String) :
    (exitFinalState cur st code f t).tabId = some t := rfl

/-- Characterization of the exit handler: it publishes the classified final
state under the project key, leaves the terminal registry untouched — in
particular it disposes no session — and removes the `RunProcess`. -/
theorem onExit_spec (o : Orch) (project : Project) (tabId : String)
    (runId : Option String) (exitCode : Option Int) (finished : Nat)
    (hwf : ∀ s, o.states.lookup project.id = some s → s.projectId = project.id) :
    ∃ cur : RunState,
      (onExit o project tabId runId exitCode finished).states.lookup project.id =
        some (exitFinalState cur (classifyExit (stopRequestedOf o project.id) exitCode)
          exitCode finished tabId) ∧
      (onExit o project tabId runId exitCode finished).tabs = o.tabs ∧
      (onExit o project tabId runId exitCode finished).processes =
        removeEntry o.processes project.id ∧
      ∃ evs : List Event,
        (onExit o project tabId runId exitCode finished).log = o.log ++ evs ∧
        ∀ i : String, Event.tabDisposed i ∉ evs := by
  unfold onExit Orch.getStateInsert
  cases hl : o.states.lookup project.id with
  | some s =>
    have hpid : s.projectId = project.id := hwf s hl
    simp only [hl]
    refine ⟨s, ?_, ?_, ?_, ?_⟩
    · cases runId <;> split <;>
        simp [Orch.persist, Orch.updateState, hpid, lookup_setEntry_self]
    · cases runId <;> split <;> simp [Orch.persist, Orch.updateState]
    · cases runId <;> split <;> simp [Orch.persist, Orch.updateState]
    · cases runId with
      | none =>
        refine ⟨[.persistStatus (exitFinalState s
            (classifyExit (stopRequestedOf o project.id) exitCode)
            exitCode finished tabId).toPersist,
          .stateSet (exitFinalState s
            (classifyExit (stopRequestedOf o project.id) exitCode)
            exitCode finished tabId)], ?_, by simp⟩
        split <;> simp [Orch.persist, Orch.updateState]
      | some rid =>
        refine ⟨[.persistStatus (exitFinalState s
            (classifyExit (stopRequestedOf o project.id) exitCode)
            exitCode finished tabId).toPersist,
          .stateSet (exitFinalState s
            (classifyExit (stopRequestedOf o project.id) exitCode)
            exitCode finished tabId),
          .runOutcome rid exitCode finished], ?_, by simp⟩
        split <;> simp [Orch.persist, Orch.updateState]
  | none =>
    simp only [hl]
    refine ⟨createIdleState project.id finished, ?_, ?_, ?_, ?_⟩
    · cases runId <;> split <;>
        simp [Orch.persist, Orch.updateState, createIdleState, lookup_setEntry_self]
    · cases runId <;> split <;> simp [Orch.persist, Orch.updateState]
    · cases runId <;> split <;> simp [Orch.persist, Orch.updateState]
    · cases runId with
      | none =>
        refine ⟨[.persistStatus (exitFinalState (createIdleState project.id finished)
            (classifyExit (stopRequestedOf o project.id) exitCode)
            exitCode finished tabId).toPersist,
          .stateSet (exitFinalState (createIdleState project.id finished)
            (classifyExit (stopRequestedOf o project.id) exitCode)
            exitCode finished tabId)], ?_, by simp⟩
        split <;> simp [Orch.persist, Orch.updateState]
      | some rid =>
        refine ⟨[.persistStatus (exitFinalState (createIdleState project.id finished)
            (classifyExit (stopRequestedOf o project.id) exitCode)
            exitCode finished tabId).toPersist,
          .stateSet (exitFinalState (createIdleState project.id finished)
            (classifyExit (stopRequestedOf o project.id) exitCode)
            exitCode finished tabId),
          .runOutcome rid exitCode finished], ?_, by simp⟩
        split <;> simp [Orch.persist, Orch.updateState]

/-! ### C1 — exit classification -/

/-- C1: when the bound process of a project with a registered `RunProcess`
exits, the handler classifies the outcome from the process's
`stopRequested` flag and the reported exit code — `stopped` whenever
`stopRequested` is set, regardless of the code; otherwise `failed` for a
`null` or non-zero code; otherwise `succeeded` — and the final published
state records the exit code in `lastExitCode` and the `finishedAt`
timestamp. -/
theorem onExit_classification (o : Orch) (project : Project) (tabId : String)
    (runId : Option String) (exitCode : Option Int) (finished : Nat)
    (proc : RunProcess)
    (hproc : o.processes.lookup project.id = some proc)
    (hwf : ∀ s, o.states.lookup project.id = some s → s.projectId = project.id) :
    ∃ final : RunState,
      (onExit o project tabId runId exitCode finished).states.lookup project.id =
        some final ∧
      (proc.stopRequested = true → final.status = .stopped) ∧
      (proc.stopRequested = false → exitCode = none → final.status = .failed) ∧
      (proc.stopRequested = false → ∀ n : Int, exitCode = some n → n ≠ 0 →
        final.status = .failed) ∧
      (proc.stopRequested = false → exitCode = some 0 → final.status = .succeeded) ∧
      final.lastExitCode = exitCode ∧
      final.finishedAt = some finished := by
  obtain ⟨cur, hlook, -, -, -⟩ :=
    onExit_spec o project tabId runId exitCode finished hwf
  have hstop : stopRequestedOf o project.id = proc.stopRequested := by
    simp [stopRequestedOf, hproc]
  refine ⟨_, hlook, ?_, ?_, ?_, ?_, rfl, rfl⟩
  · intro h
    simp [classifyExit, hstop, h]
  · intro h hc
    simp [classifyExit, hstop, h, hc]
  · intro h n hc hn
    simp [classifyExit, hstop, h, hc, hn]
  · intro h hc
    simp [classifyExit, hstop, h, hc]

/-- Projection: the `starting` snapshot has status `starting`. -/
@[simp] theorem startingSnapshot_status (state0 : RunState) (cmd : RunCommand) (now : Nat) :
    (startingSnapshot state0 cmd now).status = .starting := rfl

/-- Projection: the `starting` snapshot binds no tab. -/
@[simp] theorem startingSnapshot_tabId (state0 : RunState) (cmd : RunCommand) (now : Nat) :
    (startingSnapshot state0 cmd now).tabId = none := rfl

/-- `getState` never touches the process map, the terminal registry or the
effect log. -/
theorem getStateInsert_frame (o : Orch) (pid : String) (now : Nat) :
    (o.getStateInsert pid now).2.log = o.log ∧
    (o.getStateInsert pid now).2.tabs = o.tabs ∧
    (o.getStateInsert pid now).2.processes = o.processes := by
  unfold Orch.getStateInsert
  cases h : o.states.lookup pid <;> simp

/-- The state `getState` returns carries the requested project id (assuming
the map is well-keyed). -/
theorem getStateInsert_pid (o : Orch) (pid : String) (now : Nat)
    (state0 : RunState) (oMid : Orch)
    (hwf : ∀ s, o.states.lookup pid = some s → s.projectId = pid)
    (hgs : o.getStateInsert pid now = (state0, oMid)) :
    state0.projectId = pid := by
  unfold Orch.getStateInsert at hgs
  cases h : o.states.lookup pid with
  | some s =>
    rw [h] at hgs
    obtain ⟨h1, -⟩ := Prod.mk.injEq .. ▸ hgs
    exact h1 ▸ hwf s h
  | none =>
    rw [h] at hgs
    obtain ⟨h1, -⟩ := Prod.mk.injEq .. ▸ hgs
    exact h1 ▸ rfl

/-- `start` reduces to `startResolved` once the guard passed and a command
resolved. -/
theorem start_eq_startResolved (o : Orch) (project : Project) (ov : RunOverrides)
    (runs : List RunConfig) (env : StartEnv) (state0 : RunState) (oMid : Orch)
    (cmd : RunCommand)
    (hgs : o.getStateInsert project.id env.now = (state0, oMid))
    (hg : ¬(state0.status = .starting ∨ state0.status = .running))
    (hres : resolveCommand project ov state0 runs = some cmd) :
    start o project ov runs env = startResolved oMid project state0 cmd env := by
  unfold start
  rw [hgs]
  simp only [if_neg hg, hres]

/-! ### Concrete fixtures for witnesses and counterexamples -/

/-- A concrete demo project. -/
def demoProject : Project :=
  { id := "p1", name := "Demo", path := "/demo", detectedLang := none
    createdAt := 0, updatedAt := 0 }

/-- Overrides carrying an explicit command. -/
def demoOverrides : RunOverrides :=
  { RunOverrides.empty with command := some "npm" }

/-- A spawn environment where both backends succeed. -/
def demoEnvOk : StartEnv :=
  { now := 10, nowRunning := 11, ptyFails := false, shellFails := false, tabId := "t1" }

/-- A spawn environment where the PTY spawn throws and the subprocess spawn
throws too. -/
def demoEnvBothFail : StartEnv :=
  { now := 10, nowRunning := 11, ptyFails := true, shellFails := true, tabId := "t1" }

/-! ### C6 — stop is advisory and leaves RunState untouched -/

/-- C6: `stop(projectId)` is a no-op when no `RunProcess` is registered for
the project; otherwise it sets the process's `stopRequested` flag and
invokes its `kill()` capability; in both cases the `RunState` map — every
field of every state, status included — is left unchanged. -/
theorem stop_is_advisory (o : Orch) (pid : String) :
    (stop o pid).states = o.states ∧
    (o.processes.lookup pid = none → stop o pid = o) ∧
    (∀ p : RunProcess, o.processes.lookup pid = some p →
      (stop o pid).processes.lookup pid = some { p with stopRequested := true } ∧
      (stop o pid).log = o.log ++ [.processKill p.tabId]) := by
  refine ⟨?_, ?_, ?_⟩
  · unfold stop
    cases h : o.processes.lookup pid <;> simp
  · intro h
    unfold stop
    rw [h]
  · intro p hp
    unfold stop
    rw [hp]
    exact ⟨lookup_setEntry_self o.processes pid _, rfl⟩

/-- An orchestrator with one registered process, for the C6 witness. -/
def demoOrchProc : Orch :=
  { Orch.init with processes :=
      [("p1", { tabId := "t1", stopRequested := false, ptype := .pty })] }

/-- Witness for C6 at a concrete orchestrator: a registered process gets its
flag set and its `kill()` invoked, while the state map stays equal. -/
theorem stop_is_advisory_witness :
    (stop demoOrchProc "p1").states = demoOrchProc.states ∧
    (stop demoOrchProc "p1").processes.lookup "p1" =
      some { tabId := "t1", stopRequested := true, ptype := .pty } ∧
    (stop demoOrchProc "p1").log = demoOrchProc.log ++ [.processKill "t1"] :=
  ⟨(stop_is_advisory demoOrchProc "p1").1,
   ((stop_is_advisory demoOrchProc "p1").2.2 _ rfl).1,
   ((stop_is_advisory demoOrchProc "p1").2.2 _ rfl).2⟩

/-! ### C4 — ShellAdapter exit-code normalization -/

/-- C4 counterexample: the claim says an unknown (`null`) exit code is
reported as a sentinel failure value when the process was not explicitly
stopped, and that `0` is reported only on explicit platform success.  The
`closeHandler` normalization in fact reports `0` for a `null` code,
unconditionally — it has no access to any stop flag at all. -/
theorem shellAdapterCloseCode_null_counterexample :
    shellAdapterCloseCode none = 0 := rfl

/-- C4 amended: the adapter normalizes a possibly-`null` exit code to a
concrete integer before notifying exit listeners — a `null` code becomes
`0` (regardless of any stop request), a numeric code is forwarded verbatim,
and the signal passes through unchanged. -/
theorem shellAdapterCloseCode_spec :
    shellAdapterCloseCode none = 0 ∧
    (∀ n : Int, shellAdapterCloseCode (some n) = n) ∧
    (∀ code signal : Option Int,
      shellAdapterCloseEvent code signal = (shellAdapterCloseCode code, signal)) :=
  ⟨rfl, fun _ => rfl, fun _ _ => rfl⟩

/-- Witness for C1 at a concrete input: with a registered non-stopped
process and exit code 0, the published final state is `succeeded` with
`lastExitCode = 0` and `finishedAt` stamped. -/
theorem onExit_classification_witness :
    ∃ final : RunState,
      (onExit demoOrchProc demoProject "t1" none (some 0) 50).states.lookup "p1" =
        some final ∧
      final.status = .succeeded ∧
      final.lastExitCode = some 0 ∧
      final.finishedAt = some 50 := by
  obtain ⟨final, hlook, _, _, _, hsucc, hcode, hfin⟩ :=
    onExit_classification demoOrchProc demoProject "t1" none (some 0) 50
      { tabId := "t1", stopRequested := false, ptype := .pty }
      rfl (fun s h => nomatch h)
  exact ⟨final, hlook, hsucc rfl rfl, hcode, hfin⟩

/-- A state already `running`, for the C2 witness. -/
def demoRunningState : RunState :=
  { createIdleState "p1" 0 with status := .running }

/-- An orchestrator whose demo project is already `running`. -/
def demoOrchRunning : Orch :=
  { Orch.init with states := [("p1", demoRunningState)] }

/-- Witness for C2 at concrete inputs: a `start` against a `running` state
fails with `RunAlreadyInProgressError` leaving the orchestrator unchanged,
and a second `start` right after a successful one fails the same way. -/
theorem start_guard_exclusive_witness :
    start demoOrchRunning demoProject demoOverrides [] demoEnvOk =
      (.error (.runAlreadyInProgress "p1"), demoOrchRunning) ∧
    (start (start Orch.init demoProject demoOverrides [] demoEnvOk).2
        demoProject demoOverrides [] demoEnvOk).1 =
      .error (.runAlreadyInProgress "p1") :=
  ⟨(start_guard_exclusive demoOrchRunning demoProject demoOverrides [] demoEnvOk).1
      demoRunningState rfl (Or.inr rfl),
   (start_guard_exclusive Orch.init demoProject demoOverrides [] demoEnvOk).2
      "t1" (fun s h => nomatch h) rfl demoOverrides [] demoEnvOk⟩

/-! ### C5 — double spawn failure -/

/-- C5 counterexample: with a resolvable command and both the PTY spawn and
the fallback subprocess spawn throwing, `start` rejects with the propagated
spawn failure, but the project's published state still has status
`starting` — it is not rolled back to a terminal `failed` state as the
claim asserts (the tab binding is indeed `null`). -/
theorem start_bothfail_counterexample :
    (start Orch.init demoProject demoOverrides [] demoEnvBothFail).1 =
      .error .spawnFailed ∧
    ((start Orch.init demoProject demoOverrides [] demoEnvBothFail).2.states.lookup
        "p1").map (fun s : RunState => s.status) = some .starting ∧
    ((start Orch.init demoProject demoOverrides [] demoEnvBothFail).2.states.lookup
        "p1").map (fun s : RunState => s.status) ≠ some .failed ∧
    ((start Orch.init demoProject demoOverrides [] demoEnvBothFail).2.states.lookup
        "p1").map RunState.tabId = some none := by
  refine ⟨rfl, rfl, ?_, rfl⟩
  decide

/-- C5 amended: if during `start` the PTY spawn throws and the fallback
subprocess spawn also throws, `start` rejects with the propagated spawn
failure, the fallback having been attempted exactly once (the effect log
gains exactly one `spawnShellAttempt`, after the `spawnPtyAttempt`); the
project's `RunState` remains the persisted `starting` snapshot with no
bound session (`tabId = null`), no terminal tab is registered, and no
`RunProcess` is registered. -/
theorem start_bothfail_spec (o : Orch) (project : Project) (ov : RunOverrides)
    (runs : List RunConfig) (env : StartEnv)
    (state0 : RunState) (oMid : Orch) (cmd : RunCommand)
    (hwf : ∀ s, o.states.lookup project.id = some s → s.projectId = project.id)
    (hp : env.ptyFails = true) (hq : env.shellFails = true)
    (hgs : o.getStateInsert project.id env.now = (state0, oMid))
    (hg : ¬(state0.status = .starting ∨ state0.status = .running))
    (hres : resolveCommand project ov state0 runs = some cmd) :
    (start o project ov runs env).1 = .error .spawnFailed ∧
    (start o project ov runs env).2.states.lookup project.id =
      some (startingSnapshot state0 cmd env.now) ∧
    (startingSnapshot state0 cmd env.now).status = .starting ∧
    (startingSnapshot state0 cmd env.now).tabId = none ∧
    (start o project ov runs env).2.log =
      o.log ++ [.persistStatus (startingSnapshot state0 cmd env.now).toPersist,
                .stateSet (startingSnapshot state0 cmd env.now),
                .spawnPtyAttempt project.id,
                .spawnShellAttempt project.id] ∧
    (start o project ov runs env).2.tabs = o.tabs ∧
    (start o project ov runs env).2.processes = o.processes := by
  have heq := start_eq_startResolved o project ov runs env state0 oMid cmd hgs hg hres
  have hpid := getStateInsert_pid o project.id env.now state0 oMid hwf hgs
  have hframe := getStateInsert_frame o project.id env.now
  rw [hgs] at hframe
  obtain ⟨h1, h2, h3, h4, h5⟩ := startResolved_bothFail oMid project state0 cmd env hpid hp hq
  rw [heq]
  refine ⟨h1, h2, rfl, rfl, ?_, ?_, ?_⟩
  · rw [h3, hframe.1]
  · rw [h4, hframe.2.1]
  · rw [h5, hframe.2.2]

/-- Witness for C5 at a concrete input: from a fresh orchestrator with an
override command and both spawns failing. -/
theorem start_bothfail_spec_witness :
    (start Orch.init demoProject demoOverrides [] demoEnvBothFail).1 =
      .error .spawnFailed ∧
    (start Orch.init demoProject demoOverrides [] demoEnvBothFail).2.log =
      Orch.init.log ++
        [.persistStatus (startingSnapshot (createIdleState "p1" 10)
            { command := "npm", args := [], env := [], cwd := "/demo", runId := none }
            10).toPersist,
         .stateSet (startingSnapshot (createIdleState "p1" 10)
            { command := "npm", args := [], env := [], cwd := "/demo", runId := none } 10),
         .spawnPtyAttempt "p1",
         .spawnShellAttempt "p1"] ∧
    (start Orch.init demoProject demoOverrides [] demoEnvBothFail).2.tabs =
      Orch.init.tabs := by
  obtain ⟨h1, _, _, _, h5, h6, _⟩ :=
    start_bothfail_spec Orch.init demoProject demoOverrides [] demoEnvBothFail
      (createIdleState "p1" 10)
      { Orch.init with states := setEntry Orch.init.states "p1" (createIdleState "p1" 10) }
      { command := "npm", args := [], env := [], cwd := "/demo", runId := none }
      (fun s h => nomatch h) rfl rfl rfl (by decide) rfl
  exact ⟨h1, h5, h6⟩

/-! ### C7 — session lifecycle relative to the state machine -/

/-- C7 counterexample: after a successful run exits with code 0, the run
state has left `running` (it is `succeeded`), yet the terminal session is
still registered — the exit handler never disposes it (no `tabDisposed`
effect is ever logged); disposal happens only when the user closes the tab. -/
theorem session_outlives_run_counterexample :
    ((onExit (start Orch.init demoProject demoOverrides [] demoEnvOk).2
        demoProject "t1" none (some 0) 50).states.lookup "p1").map (fun s : RunState => s.status) =
      some .succeeded ∧
    (onExit (start Orch.init demoProject demoOverrides [] demoEnvOk).2
        demoProject "t1" none (some 0) 50).tabs = ["t1"] ∧
    (onExit (start Orch.init demoProject demoOverrides [] demoEnvOk).2
        demoProject "t1" none (some 0) 50).log.count (Event.tabDisposed "t1") = 0 :=
  ⟨rfl, rfl, rfl⟩

/-- C7 amended: the terminal session is created strictly after the project's
`RunState` has entered `starting` and that snapshot has been persisted (in
the effect log, a `starting` persist and a `starting` state publication both
precede the tab creation); but the session is not disposed when the state
leaves `running` — the exit handler leaves the terminal registry untouched
and never emits a disposal. -/
theorem session_lifecycle_spec :
    (∀ (o : Orch) (project : Project) (ov : RunOverrides) (runs : List RunConfig)
        (env : StartEnv) (tid : String),
      (∀ s, o.states.lookup project.id = some s → s.projectId = project.id) →
      (start o project ov runs env).1 = .ok tid →
      ∃ (pre post : List Event) (startingRec : RunState),
        (start o project ov runs env).2.log =
          o.log ++ (pre ++ Event.tabCreated env.tabId :: post) ∧
        startingRec.status = .starting ∧
        Event.persistStatus startingRec.toPersist ∈ pre ∧
        Event.stateSet startingRec ∈ pre) ∧
    (∀ (o : Orch) (project : Project) (tabId : String) (runId : Option String)
        (exitCode : Option Int) (finished : Nat),
      (∀ s, o.states.lookup project.id = some s → s.projectId = project.id) →
      (onExit o project tabId runId exitCode finished).tabs = o.tabs ∧
      ∃ evs : List Event,
        (onExit o project tabId runId exitCode finished).log = o.log ++ evs ∧
        ∀ i : String, Event.tabDisposed i ∉ evs) := by
  constructor
  · intro o project ov runs env tid hwf h
    obtain ⟨state0, cmd, -, -, hlog, -, -⟩ := start_ok_full o project ov runs env tid hwf h
    refine ⟨[.persistStatus (startingSnapshot state0 cmd env.now).toPersist,
             .stateSet (startingSnapshot state0 cmd env.now),
             .spawnPtyAttempt project.id] ++
        (if env.ptyFails then [.spawnShellAttempt project.id] else []),
      [.persistStatus (runningSnapshot (startingSnapshot state0 cmd env.now)
          env.tabId env.nowRunning).toPersist,
       .stateSet (runningSnapshot (startingSnapshot state0 cmd env.now)
          env.tabId env.nowRunning)],
      startingSnapshot state0 cmd env.now, ?_, rfl, by simp, by simp⟩
    rw [hlog]
  · intro o project tabId runId exitCode finished hwf
    obtain ⟨cur, -, htabs, -, evs, hlog, hno⟩ :=
      onExit_spec o project tabId runId exitCode finished hwf
    exact ⟨htabs, evs, hlog, hno⟩

/-- Witness for C7 at a concrete input: a fresh successful start followed by
its exit handler. -/
theorem session_lifecycle_spec_witness :
    (∃ (pre post : List Event) (startingRec : RunState),
      (start Orch.init demoProject demoOverrides [] demoEnvOk).2.log =
        Orch.init.log ++ (pre ++ Event.tabCreated "t1" :: post) ∧
      startingRec.status = .starting ∧
      Event.persistStatus startingRec.toPersist ∈ pre ∧
      Event.stateSet startingRec ∈ pre) ∧
    (onExit demoOrchProc demoProject "t1" none (some 0) 50).tabs =
      demoOrchProc.tabs :=
  ⟨session_lifecycle_spec.1 Orch.init demoProject demoOverrides [] demoEnvOk "t1"
      (fun s h => nomatch h) rfl,
   (session_lifecycle_spec.2 demoOrchProc demoProject "t1" none (some 0) 50
      (fun s h => nomatch h)).1⟩

/-! ### C8 — terminal write/kill failure semantics -/

/-- A live tab whose backing `write` throws. -/
def demoTabBadWrite : TerminalTabModel :=
  { id := "t1", projectId := "p1", pty := { writeThrows := true, killThrows := false } }

/-- A registry with one tab whose backing `write` throws. -/
def demoSvcBadWrite : TermSvc :=
  { tabMap := [("t1", demoTabBadWrite)], errorLog := [] }

/-- A live tab whose backing `kill` throws. -/
def demoTabBadKill : TerminalTabModel :=
  { id := "t2", projectId := "p1", pty := { writeThrows := false, killThrows := true } }

/-- A registry with one tab whose backing `kill` throws. -/
def demoSvcBadKill : TermSvc :=
  { tabMap := [("t2", demoTabBadKill)], errorLog := [] }

/-- C8 counterexample: the claim says `TerminalService.write(id, data)` does
not raise when the backing process's write throws.  In the source, `write`
forwards to `tab.pty.write` with no try/catch, so the throw propagates: on a
live tab whose backing write throws, the call errors instead of returning. -/
theorem terminal_write_raises_counterexample :
    TermSvc.write demoSvcBadWrite "t1" = .error "write failed" := by
  rfl

/-- C8 amended: `dispose(id)` never raises — a throwing `kill` is caught and
logged while the tab is still removed — and the terminal→process data relay
wired at session creation catches and logs a throwing write; but
`TerminalService.write(id, data)` itself forwards to the backing process
without a catch, so a throwing write propagates to the caller. -/
theorem terminal_failure_semantics (svc : TermSvc) (id : String) :
    (∃ svc' : TermSvc, TermSvc.dispose svc id = .ok svc') ∧
    (∀ tab : TerminalTabModel, svc.tabMap.lookup id = some tab →
      tab.pty.killThrows = true →
      TermSvc.dispose svc id =
        .ok { svc with errorLog := svc.errorLog ++ ["Failed to kill terminal"]
                       tabMap := removeEntry svc.tabMap id }) ∧
    (∀ tab : TerminalTabModel, svc.tabMap.lookup id = some tab →
      tab.pty.writeThrows = true →
      TermSvc.write svc id = .error "write failed") ∧
    (∀ pty : PtyBehavior, pty.writeThrows = true →
      terminalDataRelay pty = ["Failed to write to process"]) := by
  refine ⟨?_, ?_, ?_, ?_⟩
  · unfold TermSvc.dispose
    cases h : svc.tabMap.lookup id with
    | none => exact ⟨svc, rfl⟩
    | some tab =>
      cases hk : tab.pty.killThrows with
      | false =>
        refine ⟨{ svc with tabMap := removeEntry svc.tabMap id }, ?_⟩
        simp [PtyBehavior.killOp, hk]
      | true =>
        refine ⟨{ svc with errorLog := svc.errorLog ++ ["Failed to kill terminal"]
                           tabMap := removeEntry svc.tabMap id }, ?_⟩
        simp [PtyBehavior.killOp, hk]
  · intro tab h hk
    unfold TermSvc.dispose
    rw [h]
    simp [PtyBehavior.killOp, hk]
  · intro tab h hw
    unfold TermSvc.write
    rw [h]
    simp [PtyBehavior.writeOp, hw]
  · intro pty hw
    simp [terminalDataRelay, PtyBehavior.writeOp, hw]

/-- Witness for C8 at concrete registries: a throwing kill is swallowed and
logged by `dispose`, a throwing write propagates from `write`, and the data
relay swallows it. -/
theorem terminal_failure_semantics_witness :
    TermSvc.dispose demoSvcBadKill "t2" =
      .ok { demoSvcBadKill with errorLog := ["Failed to kill terminal"]
                                tabMap := removeEntry demoSvcBadKill.tabMap "t2" } ∧
    TermSvc.write demoSvcBadWrite "t1" = .error "write failed" ∧
    terminalDataRelay { writeThrows := true, killThrows := false } =
      ["Failed to write to process"] :=
  ⟨(terminal_failure_semantics demoSvcBadKill "t2").2.1 _ rfl rfl,
   (terminal_failure_semantics demoSvcBadWrite "t1").2.2.1 _ rfl rfl,
   (terminal_failure_semantics demoSvcBadWrite "t1").2.2.2 _ rfl⟩

/-! ### C10 — crash-restored states -/

theorem setEntry_lookup_cases {α : Type} (m : List (String × α)) (k : String) (v : α)
    (k' : String) (w : α) (h : (setEntry m k v).lookup k' = some w) :
    (k' = k ∧ w = v) ∨ m.lookup k' = some w := by
  induction m with
  | nil =>
    by_cases hk : k' = k
    · simp [setEntry, hk] at h
      exact Or.inl ⟨hk, h.symm⟩
    · simp [setEntry, List.lookup, beq_false_of_ne hk] at h
  | cons x xs ih =>
    obtain ⟨k₀, v₀⟩ := x
    by_cases h0 : k₀ = k
    · subst h0
      by_cases hk : k' = k₀
      · simp [setEntry, List.lookup, hk] at h
        exact Or.inl ⟨hk, h.symm⟩
      · simp only [setEntry, if_pos rfl, List.lookup, beq_false_of_ne hk] at h
        exact Or.inr (by simp [List.lookup, beq_false_of_ne hk, h])
    · by_cases hk : k' = k₀
      · simp only [setEntry, if_neg h0, List.lookup, hk, beq_self_eq_true] at h
        exact Or.inr (by simp [List.lookup, hk, h])
      · simp only [setEntry, if_neg h0, List.lookup, beq_false_of_ne hk] at h
        rcases ih h with h1 | h2
        · exact Or.inl h1
        · exact Or.inr (by simp [List.lookup, beq_false_of_ne hk, h2])

/-- Every state the restore loop produces has `tabId = null`. -/
theorem restoreRow_fold_tabId (pids : List String) (rows : List RunStatusRecord)
    (m : List (String × RunState))
    (hm : ∀ k v, m.lookup k = some v → v.tabId = none) :
    ∀ k v, (rows.foldl (restoreRow pids) m).lookup k = some v → v.tabId = none := by
  induction rows generalizing m with
  | nil => exact hm
  | cons r rest ih =>
    intro k v h
    refine ih (restoreRow pids m r) ?_ k v h
    intro k' v' h'
    unfold restoreRow at h'
    split at h'
    · rcases setEntry_lookup_cases _ _ _ _ _ h' with ⟨-, hv⟩ | hmem
      · simp [hv]
      · exact hm k' v' hmem
    · exact hm k' v' h'

/-- Every state the idle-synthesis loop produces has `tabId = null`. -/
theorem ensureIdle_fold_tabId (now : Nat) (projects : List Project)
    (m : List (String × RunState))
    (hm : ∀ k v, m.lookup k = some v → v.tabId = none) :
    ∀ k v, (projects.foldl (ensureIdle now) m).lookup k = some v → v.tabId = none := by
  induction projects generalizing m with
  | nil => exact hm
  | cons p rest ih =>
    intro k v h
    refine ih (ensureIdle now m p) ?_ k v h
    intro k' v' h'
    unfold ensureIdle at h'
    split at h'
    · exact hm k' v' h'
    · rcases setEntry_lookup_cases _ _ _ _ _ h' with ⟨-, hv⟩ | hmem
      · simp [hv, createIdleState]
      · exact hm k' v' hmem

/-- The restore loop does not disturb keys outside the remaining rows. -/
theorem restoreRow_fold_preserve (pids : List String) (rows : List RunStatusRecord)
    (m : List (String × RunState)) (k : String) (v : RunState)
    (hk : k ∉ rows.map RunStatusRecord.projectId) (h : m.lookup k = some v) :
    (rows.foldl (restoreRow pids) m).lookup k = some v := by
  induction rows generalizing m with
  | nil => exact h
  | cons r rest ih =>
    simp only [List.map_cons, List.mem_cons, not_or] at hk
    refine ih (restoreRow pids m r) hk.2 ?_
    unfold restoreRow
    split
    · rw [lookup_setEntry_ne _ _ _ _ hk.1]
      exact h
    · exact h

/-- With no duplicate project ids among the rows, the restore loop installs
each admissible row verbatim (with `tabId` reset). -/
theorem restoreRow_fold_restore (pids : List String) (rows : List RunStatusRecord)
    (m : List (String × RunState))
    (hnodup : (rows.map RunStatusRecord.projectId).Nodup)
    (row : RunStatusRecord) (hrow : row ∈ rows) (hmem : row.projectId ∈ pids) :
    (rows.foldl (restoreRow pids) m).lookup row.projectId =
      some { toRunStatusRecord := row, tabId := none } := by
  induction rows generalizing m with
  | nil => cases hrow
  | cons r rest ih =>
    simp only [List.map_cons, List.nodup_cons] at hnodup
    rcases List.mem_cons.mp hrow with heq | hmemr
    · subst heq
      refine restoreRow_fold_preserve pids rest (restoreRow pids m row)
        row.projectId _ hnodup.1 ?_
      unfold restoreRow
      rw [if_pos hmem]
      exact lookup_setEntry_self ..
    · exact ih (restoreRow pids m r) hnodup.2 hmemr

/-- The idle-synthesis loop preserves every existing entry. -/
theorem ensureIdle_fold_preserve (now : Nat) (projects : List Project)
    (m : List (String × RunState)) (k : String) (v : RunState)
    (h : m.lookup k = some v) :
    (projects.foldl (ensureIdle now) m).lookup k = some v := by
  induction projects generalizing m with
  | nil => exact h
  | cons p rest ih =>
    refine ih (ensureIdle now m p) ?_
    unfold ensureIdle
    cases hl : m.lookup p.id with
    | some s => exact h
    | none =>
      by_cases hpk : k = p.id
      · rw [hpk] at h
        rw [h] at hl
        cases hl
      · rw [lookup_setEntry_ne _ _ _ _ hpk]
        exact h

/-- C10: after `loadPersistedStates(projects)` on a freshly constructed
service, every `RunState` in the map has `tabId = null` and no `RunProcess`
is registered for any project, while the persisted rows of known projects
are reloaded verbatim (status included, assuming one row per project as the
upsert-keyed table guarantees); consequently a status persisted as
`starting` or `running` before a crash is restored as-is, every subsequent
`start()` on that project fails with `RunAlreadyInProgressError` leaving the
orchestrator unchanged even though no live process exists, and `stop()` is a
no-op. -/
theorem loadPersisted_crash_restore (projects : List Project)
    (rows : List RunStatusRecord) (now : Nat) :
    (∀ pid s, (loadPersistedStates Orch.init projects rows now).states.lookup pid =
        some s → s.tabId = none) ∧
    (loadPersistedStates Orch.init projects rows now).processes = [] ∧
    ((rows.map RunStatusRecord.projectId).Nodup →
      ∀ row ∈ rows, row.projectId ∈ projects.map Project.id →
        (loadPersistedStates Orch.init projects rows now).states.lookup row.projectId =
          some { toRunStatusRecord := row, tabId := none }) ∧
    (∀ pid s,
      (loadPersistedStates Orch.init projects rows now).states.lookup pid = some s →
      (s.status = .starting ∨ s.status = .running) →
      (∀ (project : Project) (ov : RunOverrides) (runs : List RunConfig)
          (env : StartEnv), project.id = pid →
        start (loadPersistedStates Orch.init projects rows now) project ov runs env =
          (.error (.runAlreadyInProgress pid),
           loadPersistedStates Orch.init projects rows now)) ∧
      stop (loadPersistedStates Orch.init projects rows now) pid =
        loadPersistedStates Orch.init projects rows now) := by
  refine ⟨?_, rfl, ?_, ?_⟩
  · intro pid s h
    exact ensureIdle_fold_tabId now projects _
      (restoreRow_fold_tabId (projects.map Project.id) rows [] (fun k v h => by cases h))
      pid s h
  · intro hnodup row hrow hmem
    exact ensureIdle_fold_preserve now projects _ _ _
      (restoreRow_fold_restore (projects.map Project.id) rows [] hnodup row hrow hmem)
  · intro pid s h hst
    constructor
    · intro project ov runs env hpid
      subst hpid
      exact start_guard_aux _ project ov runs env s h hst
    · rfl

/-- A persisted row stranded at `running` (as after a crash). -/
def demoCrashRow : RunStatusRecord :=
  { projectId := "p1", status := .running, lastRunId := none
    lastCommand := some "npm", lastArgs := [], lastEnv := [], lastCwd := none
    lastExitCode := none, startedAt := some 3, finishedAt := none, updatedAt := 4 }

/-- Witness for C10 at concrete inputs: a crash-stranded `running` row is
restored verbatim with `tabId = null`, the following `start` fails with
`RunAlreadyInProgressError`, and `stop` is a no-op. -/
theorem loadPersisted_crash_restore_witness :
    (loadPersistedStates Orch.init [demoProject] [demoCrashRow] 7).states.lookup "p1" =
      some { toRunStatusRecord := demoCrashRow, tabId := none } ∧
    (loadPersistedStates Orch.init [demoProject] [demoCrashRow] 7).processes = [] ∧
    start (loadPersistedStates Orch.init [demoProject] [demoCrashRow] 7)
        demoProject demoOverrides [] demoEnvOk =
      (.error (.runAlreadyInProgress "p1"),
       loadPersistedStates Orch.init [demoProject] [demoCrashRow] 7) ∧
    stop (loadPersistedStates Orch.init [demoProject] [demoCrashRow] 7) "p1" =
      loadPersistedStates Orch.init [demoProject] [demoCrashRow] 7 := by
  have hres := (loadPersisted_crash_restore [demoProject] [demoCrashRow] 7).2.2.1
    (by decide) demoCrashRow (by decide) (by decide)
  refine ⟨hres, (loadPersisted_crash_restore [demoProject] [demoCrashRow] 7).2.1, ?_, ?_⟩
  · exact ((loadPersisted_crash_restore [demoProject] [demoCrashRow] 7).2.2.2 "p1"
      { toRunStatusRecord := demoCrashRow, tabId := none } hres (Or.inr rfl)).1
      demoProject demoOverrides [] demoEnvOk rfl
  · exact ((loadPersisted_crash_restore [demoProject] [demoCrashRow] 7).2.2.2 "p1"
      { toRunStatusRecord := demoCrashRow, tabId := none } hres (Or.inr rfl)).2

/-! ### C3 — command resolution order -/

theorem mem_insertDescBy {α : Type} (key : α → Nat) (r : α) (l : List α) (y : α) :
    y ∈ insertDescBy key r l ↔ y = r ∨ y ∈ l := by
  induction l with
  | nil => simp [insertDescBy]
  | cons x xs ih =>
    unfold insertDescBy
    split
    · simp only [List.mem_cons, ih]
      tauto
    · simp only [List.mem_cons]

theorem mem_sortDescBy {α : Type} (key : α → Nat) (l : List α) (y : α) :
    y ∈ sortDescBy key l ↔ y ∈ l := by
  induction l with
  | nil => simp [sortDescBy]
  | cons x xs ih =>
    show y ∈ insertDescBy key x (sortDescBy key xs) ↔ _
    rw [mem_insertDescBy]
    simp [ih]

theorem pairwise_insertDescBy {α : Type} (key : α → Nat) (r : α) (l : List α)
    (h : l.Pairwise (fun a b => key b ≤ key a)) :
    (insertDescBy key r l).Pairwise (fun a b => key b ≤ key a) := by
  induction l with
  | nil => simp [insertDescBy]
  | cons x xs ih =>
    rw [List.pairwise_cons] at h
    unfold insertDescBy
    split
    · rw [List.pairwise_cons]
      refine ⟨?_, ih h.2⟩
      intro y hy
      rcases (mem_insertDescBy key r xs y).mp hy with hyr | hyx
      · subst hyr
        assumption
      · exact h.1 y hyx
    · rw [List.pairwise_cons]
      refine ⟨?_, List.pairwise_cons.mpr h⟩
      intro y hy
      rcases List.mem_cons.mp hy with hyx | hyxs
      · subst hyx
        omega
      · exact le_trans (h.1 y hyxs) (by omega)

theorem pairwise_sortDescBy {α : Type} (key : α → Nat) (l : List α) :
    (sortDescBy key l).Pairwise (fun a b => key b ≤ key a) := by
  induction l with
  | nil => simp [sortDescBy]
  | cons x xs ih => exact pairwise_insertDescBy key x _ ih

/-- The head of the descending sort has a maximal key. -/
theorem sortDescBy_head_max {α : Type} (key : α → Nat) (l : List α) (x : α)
    (xs : List α) (h : sortDescBy key l = x :: xs) :
    ∀ y ∈ l, key y ≤ key x := by
  intro y hy
  have hmem : y ∈ x :: xs := h ▸ (mem_sortDescBy key l y).mpr hy
  rcases List.mem_cons.mp hmem with hyx | hyxs
  · subst hyx
    exact le_refl _
  · have hp := pairwise_sortDescBy key l
    rw [h, List.pairwise_cons] at hp
    exact hp.1 y hyxs

/-- C3 counterexample: the claim resolves "the explicit override command"
first and reports `MissingRunConfiguration` only "if none resolves"; but the
source tests the override with JavaScript truthiness, so the explicitly
supplied empty-string command is skipped, and with no other source the call
rejects with `MissingRunConfigurationError` instead of resolving to it.
(The same truthiness test makes `lastCommand = ""` fall through to the
stored configurations, against the claim's "lastCommand non-null" reading.) -/
theorem resolve_empty_override_counterexample :
    ({ RunOverrides.empty with command := some "" } : RunOverrides).command = some "" ∧
    resolveCommand demoProject { RunOverrides.empty with command := some "" }
      (createIdleState "p1" 0) [] = none ∧
    (start Orch.init demoProject { RunOverrides.empty with command := some "" } []
      demoEnvOk).1 = .error (.missingRunConfiguration "p1") := by
  exact ⟨rfl, rfl, rfl⟩

/-- C3 amended: `start` resolves the effective command in this order — (1)
the override command when it is a non-empty string, (2) the project's
last-used invocation when `lastCommand` is a non-empty string, (3) the head
of `listRuns(project.id)`, which is a stored configuration of the project
with maximal `updatedAt`; when nothing resolves, `start` fails with
`MissingRunConfigurationError` having spawned nothing (no spawn attempt, no
tab, no process, no persistence). -/
theorem command_resolution_order (project : Project) (ov : RunOverrides)
    (current : RunState) (table : List RunConfig) :
    (strTruthy ov.command = true →
      resolveCommand project ov current (listRunsSorted table project.id) =
        some { command := ov.command.getD "", args := ov.args.getD []
               env := ov.env.getD [], cwd := ov.cwd.getD project.path
               runId := ov.runId }) ∧
    (strTruthy ov.command = false → strTruthy current.lastCommand = true →
      resolveCommand project ov current (listRunsSorted table project.id) =
        some { command := current.lastCommand.getD ""
               args := ov.args.getD current.lastArgs
               env := ov.env.getD current.lastEnv
               cwd := ov.cwd.getD (current.lastCwd.getD project.path)
               runId := ov.runId <|> current.lastRunId }) ∧
    (strTruthy ov.command = false → strTruthy current.lastCommand = false →
      ∀ r : RunCommand,
        resolveCommand project ov current (listRunsSorted table project.id) = some r →
        ∃ sel ∈ table.filter (fun c => c.projectId = project.id),
          r = { command := sel.command, args := ov.args.getD sel.args
                env := ov.env.getD sel.env
                cwd := ov.cwd.getD (sel.cwd.getD project.path)
                runId := ov.runId <|> some sel.id } ∧
          ∀ other ∈ table.filter (fun c => c.projectId = project.id),
            other.updatedAt ≤ sel.updatedAt) ∧
    (∀ (o : Orch) (env : StartEnv),
      resolveCommand project ov (o.getStateInsert project.id env.now).1
        (listRunsSorted table project.id) = none →
      ¬((o.getStateInsert project.id env.now).1.status = .starting ∨
        (o.getStateInsert project.id env.now).1.status = .running) →
      (start o project ov (listRunsSorted table project.id) env).1 =
        .error (.missingRunConfiguration project.id) ∧
      (start o project ov (listRunsSorted table project.id) env).2.log = o.log ∧
      (start o project ov (listRunsSorted table project.id) env).2.tabs = o.tabs ∧
      (start o project ov (listRunsSorted table project.id) env).2.processes =
        o.processes) := by
  refine ⟨?_, ?_, ?_, ?_⟩
  · intro h
    unfold resolveCommand
    rw [if_pos h]
  · intro h1 h2
    unfold resolveCommand
    rw [if_neg (by simp [h1]), if_pos h2]
  · intro h1 h2 r hr
    unfold resolveCommand at hr
    rw [if_neg (by simp [h1]), if_neg (by simp [h2])] at hr
    cases hl : listRunsSorted table project.id with
    | nil =>
      rw [hl] at hr
      cases hr
    | cons sel rest =>
      rw [hl] at hr
      refine ⟨sel, ?_, ?_, ?_⟩
      · rw [← mem_sortDescBy RunConfig.updatedAt]
        show sel ∈ listRunsSorted table project.id
        rw [hl]
        exact List.mem_cons_self ..
      · exact (Option.some.injEq _ _ ▸ hr).symm
      · exact sortDescBy_head_max RunConfig.updatedAt _ sel rest hl
  · intro o env hres hg
    have hstart : start o project ov (listRunsSorted table project.id) env =
        (.error (.missingRunConfiguration project.id),
         (o.getStateInsert project.id env.now).2) := by
      unfold start
      simp only [if_neg hg, hres]
    have hframe := getStateInsert_frame o project.id env.now
    rw [hstart]
    exact ⟨rfl, hframe.1, hframe.2.1, hframe.2.2⟩

/-- A stale stored configuration. -/
def demoCfgOld : RunConfig :=
  { id := "r1", projectId := "p1", command := "old", args := [], env := []
    cwd := none, lastExitCode := none, updatedAt := 1 }

/-- A more recently saved stored configuration. -/
def demoCfgNew : RunConfig :=
  { id := "r2", projectId := "p1", command := "new", args := [], env := []
    cwd := none, lastExitCode := none, updatedAt := 5 }

/-- Witness for C3 at concrete inputs: the non-empty override wins; with no
override, the most recently updated stored configuration is selected; with
nothing stored, `start` rejects with `MissingRunConfigurationError` and no
spawn. -/
theorem command_resolution_order_witness :
    resolveCommand demoProject demoOverrides (createIdleState "p1" 0)
        (listRunsSorted [] "p1") =
      some { command := "npm", args := [], env := [], cwd := "/demo", runId := none } ∧
    (∃ sel ∈ [demoCfgOld, demoCfgNew].filter (fun c => c.projectId = "p1"),
      ({ command := "new", args := [], env := [], cwd := "/demo"
         runId := some "r2" } : RunCommand) =
        { command := sel.command, args := sel.args, env := sel.env
          cwd := sel.cwd.getD "/demo", runId := some sel.id } ∧
      ∀ other ∈ [demoCfgOld, demoCfgNew].filter (fun c => c.projectId = "p1"),
        other.updatedAt ≤ sel.updatedAt) ∧
    (start Orch.init demoProject RunOverrides.empty (listRunsSorted [] "p1")
        demoEnvOk).1 = .error (.missingRunConfiguration "p1") := by
  refine ⟨?_, ?_, ?_⟩
  · exact (command_resolution_order demoProject demoOverrides
      (createIdleState "p1" 0) []).1 rfl
  · exact (command_resolution_order demoProject RunOverrides.empty
      (createIdleState "p1" 0) [demoCfgOld, demoCfgNew]).2.2.1 rfl rfl _ rfl
  · exact ((command_resolution_order demoProject RunOverrides.empty
      (createIdleState "p1" 10) []).2.2.2 Orch.init demoEnvOk rfl (by decide)).1

/-! ### C9 — JSON round trip of run configurations -/

theorem hexVal_hexDigitChar (n : Nat) (h : n < 16) :
    hexVal (hexDigitChar n) = some n := by
  interval_cases n <;> rfl

/-- One escaped character parses back to itself in front of any
continuation. -/
theorem parseStringBody_escChar (c : Char) (l : List Char) (s : List Char)
    (rest : List Char) (h : parseStringBody l = some (s, rest)) :
    parseStringBody (escChar c ++ l) = some (c :: s, rest) := by
  unfold escChar
  split_ifs with h1 h2 h3 h4 h5 h6 h7 h8
  · subst h1
    rw [List.cons_append, List.cons_append, parseStringBody.eq_def]
    simp +decide [unescChar, h]
  · subst h2
    rw [List.cons_append, List.cons_append, parseStringBody.eq_def]
    simp +decide [unescChar, h]
  · subst h3
    rw [List.cons_append, List.cons_append, parseStringBody.eq_def]
    simp +decide [unescChar, h]
  · subst h4
    rw [List.cons_append, List.cons_append, parseStringBody.eq_def]
    simp +decide [unescChar, h]
  · subst h5
    rw [List.cons_append, List.cons_append, parseStringBody.eq_def]
    simp +decide [unescChar, h]
  · subst h6
    rw [List.cons_append, List.cons_append, parseStringBody.eq_def]
    simp +decide [unescChar, h]
  · subst h7
    rw [List.cons_append, List.cons_append, parseStringBody.eq_def]
    simp +decide [unescChar, h]
  · have d1 : c.toNat / 16 < 16 := by omega
    have d2 : c.toNat % 16 < 16 := by omega
    have e0 : hexVal (Char.ofNat 48) = some 0 := by decide
    rw [List.cons_append, parseStringBody.eq_def]
    simp +decide [e0, hexVal_hexDigitChar _ d1, hexVal_hexDigitChar _ d2, h]
    have harith : c.toNat / 16 * 16 + c.toNat % 16 = c.toNat := by omega
    rw [harith, Char.ofNat_toNat]
  · rw [List.cons_append, parseStringBody.eq_def]
    simp [h1, h2, h]

/-- The encoded body of a string, followed by the closing quote, parses back
to the string in front of any continuation. -/
theorem parseStringBody_enc (s : List Char) (rest : List Char) :
    parseStringBody (s.flatMap escChar ++ (quoteChar :: rest)) = some (s, rest) := by
  induction s with
  | nil =>
    rw [List.flatMap_nil, List.nil_append, parseStringBody.eq_def]
    simp
  | cons c cs ih =>
    rw [List.flatMap_cons, List.append_assoc]
    exact parseStringBody_escChar c _ cs rest ih

/-- An encoded nonempty item list starts with a quote. -/
theorem encStringItems_cons_shape (s : List Char) (ss : List (List Char)) :
    ∃ t : List Char, encStringItems (s :: ss) = quoteChar :: t := by
  cases ss with
  | nil => exact ⟨_, rfl⟩
  | cons s₂ ss₂ => exact ⟨_, rfl⟩

theorem le_length_encStringItems (xs : List (List Char)) :
    xs.length ≤ (encStringItems xs).length := by
  induction xs with
  | nil => simp [encStringItems]
  | cons s ss ih =>
    cases ss with
    | nil => simp [encStringItems, encStringChars]
    | cons s₂ ss₂ =>
      rw [show encStringItems (s :: s₂ :: ss₂) =
        encStringChars s ++ ',' :: encStringItems (s₂ :: ss₂) from rfl]
      simp only [List.length_append, List.length_cons, encStringChars] at *
      omega

/-- Encoded items followed by the closing bracket parse back, given enough
fuel. -/
theorem parseStringItems_enc (xs : List (List Char)) (rest : List Char) (fuel : Nat)
    (hxs : xs ≠ []) (hf : xs.length ≤ fuel) :
    parseStringItems fuel (encStringItems xs ++ (']' :: rest)) = some (xs, rest) := by
  induction xs generalizing fuel rest with
  | nil => exact absurd rfl hxs
  | cons s ss ih =>
    cases fuel with
    | zero => simp at hf
    | succ n =>
      cases ss with
      | nil =>
        have hshape : encStringItems [s] ++ (']' :: rest) =
            quoteChar :: (s.flatMap escChar ++ (quoteChar :: (']' :: rest))) := by
          simp [encStringItems, encStringChars]
        rw [hshape, parseStringItems.eq_def]
        simp +decide [parseStringBody_enc]
      | cons s₂ ss₂ =>
        have hih := ih rest n (by simp) (by simp only [List.length_cons] at hf ⊢; omega)
        have hshape : encStringItems (s :: s₂ :: ss₂) ++ (']' :: rest) =
            quoteChar :: (s.flatMap escChar ++ (quoteChar ::
              (',' :: (encStringItems (s₂ :: ss₂) ++ (']' :: rest))))) := by
          simp [encStringItems, encStringChars]
        rw [hshape, parseStringItems.eq_def]
        simp +decide [parseStringBody_enc, hih]

/-- `JSON.parse` inverts `JSON.stringify` on arrays of strings. -/
theorem parseStringArrayChars_enc (xs : List (List Char)) :
    parseStringArrayChars (encArrayChars xs) = some xs := by
  cases xs with
  | nil => decide
  | cons s ss =>
    obtain ⟨t, ht⟩ := encStringItems_cons_shape s ss
    have hlen : (s :: ss).length ≤ (encStringItems (s :: ss) ++ ([']'] : List Char)).length := by
      have hl := le_length_encStringItems (s :: ss)
      simp only [List.length_append, List.length_cons, List.length_nil] at hl ⊢
      omega
    have hitems := parseStringItems_enc (s :: ss) []
      ((encStringItems (s :: ss) ++ ([']'] : List Char)).length) (by simp) hlen
    have hR : encStringItems (s :: ss) ++ ([']'] : List Char) = quoteChar :: (t ++ [']']) := by
      rw [ht]
      rfl
    rw [hR] at hitems
    unfold parseStringArrayChars encArrayChars
    rw [List.cons_append, hR]
    simp only [List.length_cons, List.length_append, List.length_nil] at hitems
    simp +decide [hitems]

/-- An encoded nonempty member list starts with a quote. -/
theorem encRecordItems_cons_shape (kv : List Char × List Char)
    (kvs : List (List Char × List Char)) :
    ∃ t : List Char, encRecordItems (kv :: kvs) = quoteChar :: t := by
  cases kvs with
  | nil => exact ⟨_, rfl⟩
  | cons kv₂ kvs₂ => exact ⟨_, rfl⟩

theorem le_length_encRecordItems (kvs : List (List Char × List Char)) :
    kvs.length ≤ (encRecordItems kvs).length := by
  induction kvs with
  | nil => simp [encRecordItems]
  | cons kv kvs ih =>
    cases kvs with
    | nil => simp [encRecordItems, encPairChars, encStringChars]
    | cons kv₂ kvs₂ =>
      rw [show encRecordItems (kv :: kv₂ :: kvs₂) =
        encPairChars kv ++ ',' :: encRecordItems (kv₂ :: kvs₂) from rfl]
      simp only [List.length_append, List.length_cons, encPairChars,
        encStringChars] at *
      omega

/-- Encoded members followed by the closing brace parse back, given enough
fuel. -/
theorem parseRecordItems_enc (kvs : List (List Char × List Char))
    (rest : List Char) (fuel : Nat)
    (hkvs : kvs ≠ []) (hf : kvs.length ≤ fuel) :
    parseRecordItems fuel (encRecordItems kvs ++ (rbraceChar :: rest)) =
      some (kvs, rest) := by
  induction kvs generalizing fuel rest with
  | nil => exact absurd rfl hkvs
  | cons kv kvs ih =>
    cases fuel with
    | zero => simp at hf
    | succ n =>
      cases kvs with
      | nil =>
        have hshape : encRecordItems [kv] ++ (rbraceChar :: rest) =
            quoteChar :: (kv.1.flatMap escChar ++ (quoteChar ::
              (':' :: (quoteChar :: (kv.2.flatMap escChar ++ (quoteChar ::
                (rbraceChar :: rest))))))) := by
          simp [encRecordItems, encPairChars, encStringChars]
        rw [hshape, parseRecordItems.eq_def]
        simp +decide [parseStringBody_enc]
      | cons kv₂ kvs₂ =>
        have hih := ih rest n (by simp) (by simp only [List.length_cons] at hf ⊢; omega)
        have hshape : encRecordItems (kv :: kv₂ :: kvs₂) ++ (rbraceChar :: rest) =
            quoteChar :: (kv.1.flatMap escChar ++ (quoteChar ::
              (':' :: (quoteChar :: (kv.2.flatMap escChar ++ (quoteChar ::
                (',' :: (encRecordItems (kv₂ :: kvs₂) ++ (rbraceChar :: rest))))))))) := by
          simp [encRecordItems, encPairChars, encStringChars]
        rw [hshape, parseRecordItems.eq_def]
        simp +decide [parseStringBody_enc, hih]

/-- `JSON.parse` inverts `JSON.stringify` on records of strings. -/
theorem parseStringRecordChars_enc (kvs : List (List Char × List Char)) :
    parseStringRecordChars (encRecordChars kvs) = some kvs := by
  cases kvs with
  | nil => decide
  | cons kv kvs =>
    obtain ⟨t, ht⟩ := encRecordItems_cons_shape kv kvs
    have hlen : (kv :: kvs).length ≤
        (encRecordItems (kv :: kvs) ++ ([rbraceChar] : List Char)).length := by
      have hl := le_length_encRecordItems (kv :: kvs)
      simp only [List.length_append, List.length_cons, List.length_nil] at hl ⊢
      omega
    have hitems := parseRecordItems_enc (kv :: kvs) []
      ((encRecordItems (kv :: kvs) ++ ([rbraceChar] : List Char)).length) (by simp) hlen
    have hR : encRecordItems (kv :: kvs) ++ ([rbraceChar] : List Char) =
        quoteChar :: (t ++ [rbraceChar]) := by
      rw [ht]
      rfl
    rw [hR] at hitems
    unfold parseStringRecordChars encRecordChars
    rw [List.cons_append, hR]
    simp only [List.length_cons, List.length_append, List.length_nil] at hitems
    simp +decide [hitems]

/-- Re-packing the parsed character lists gives back the original strings. -/
theorem map_mk_data (ys : List String) :
    ys.map (fun s => String.mk s.data) = ys := by
  induction ys with
  | nil => rfl
  | cons y ys ih => simp [ih]

/-- Re-packing the parsed character-list pairs gives back the original pairs. -/
theorem map_mk_data_pair (ys : List (String × String)) :
    ys.map (fun kv => (String.mk kv.1.data, String.mk kv.2.data)) = ys := by
  induction ys with
  | nil => rfl
  | cons y ys ih => simp [ih]

/-- String-level round trip for `string[]` columns. -/
theorem jsonParseStrings_roundtrip (xs : List String) :
    jsonParseStrings (jsonStringifyStrings xs) = some xs := by
  unfold jsonParseStrings jsonStringifyStrings
  rw [show (String.mk (encArrayChars (xs.map String.data))).data =
    encArrayChars (xs.map String.data) from rfl]
  rw [parseStringArrayChars_enc]
  simp only [Option.map_some', List.map_map]
  rw [show (String.mk ∘ String.data) = fun s : String => String.mk s.data from rfl]
  rw [map_mk_data]

/-- String-level round trip for `Record<string,string>` columns. -/
theorem jsonParseRecord_roundtrip (kvs : List (String × String)) :
    jsonParseRecord (jsonStringifyRecord kvs) = some kvs := by
  unfold jsonParseRecord jsonStringifyRecord
  rw [show (String.mk (encRecordChars (kvs.map (fun kv => (kv.1.data, kv.2.data))))).data =
    encRecordChars (kvs.map (fun kv => (kv.1.data, kv.2.data))) from rfl]
  rw [parseStringRecordChars_enc]
  simp only [Option.map_some', List.map_map]
  rw [show ((fun kv : List Char × List Char => (String.mk kv.1, String.mk kv.2)) ∘
    (fun kv : String × String => (kv.1.data, kv.2.data))) =
    fun kv : String × String => (String.mk kv.1.data, String.mk kv.2.data) from rfl]
  rw [map_mk_data_pair]

/-- A serialized `args` column is never the empty string. -/
theorem jsonStringifyStrings_ne_empty (xs : List String) :
    jsonStringifyStrings xs ≠ "" := by
  unfold jsonStringifyStrings
  intro h
  have hd := congrArg String.data h
  simp [encArrayChars] at hd

/-- A serialized `env` column is never the empty string. -/
theorem jsonStringifyRecord_ne_empty (kvs : List (String × String)) :
    jsonStringifyRecord kvs ≠ "" := by
  unfold jsonStringifyRecord
  intro h
  have hd := congrArg String.data h
  simp [encRecordChars] at hd

/-- Row-level round trip: decoding the row `saveRunConfig` writes returns
the configuration unchanged. -/
theorem fromRunRow_roundtrip (r : RunConfig) :
    fromRunRow (runConfigToRow r) = some r := by
  unfold fromRunRow runConfigToRow
  simp [jsonStringifyStrings_ne_empty r.args, jsonStringifyRecord_ne_empty r.env,
    jsonParseStrings_roundtrip, jsonParseRecord_roundtrip]

/-- C9: for every valid `RunConfig` (a JavaScript object's environment has
no duplicate keys), `rememberConfiguration(project, config)` followed by
listing the project's run configurations returns the saved configuration
with identical `command`, `args`, `env` and `cwd` — indeed the whole
configuration survives the JSON serialization into the store and the
deserialization back unchanged. -/
theorem rememberConfiguration_roundtrip (o : Orch) (project : Project)
    (config : RunConfig) (now : Nat)
    (hpid : config.projectId = project.id)
    (hnodup : (config.env.map Prod.fst).Nodup) :
    (∀ r : RunConfig, fromRunRow (runConfigToRow r) = some r) ∧
    listRunsDb (rememberConfiguration [] o project config now).1 project.id =
      some [config] := by
  refine ⟨fromRunRow_roundtrip, ?_⟩
  have hrow : (runConfigToRow config).projectId = project.id := hpid
  show listRunsDb [runConfigToRow config] project.id = some [config]
  unfold listRunsDb
  simp [hrow, sortDescBy, insertDescBy, List.mapM.loop, fromRunRow_roundtrip]

/-- A concrete configuration with arguments and environment entries. -/
def demoConfig : RunConfig :=
  { id := "r9", projectId := "p1", command := "npm", args := ["run", "dev"]
    env := [("NODE_ENV", "dev")], cwd := some "/demo", lastExitCode := none
    updatedAt := 99 }

/-- Witness for C9 at a concrete configuration: remembering it and listing
the project's configurations returns it unchanged. -/
theorem rememberConfiguration_roundtrip_witness :
    listRunsDb (rememberConfiguration [] Orch.init demoProject demoConfig 100).1 "p1" =
      some [demoConfig] :=
  (rememberConfiguration_roundtrip Orch.init demoProject demoConfig 100 rfl
    (by decide)).2

end Projectlib
